import Mathlib

/-!
Verification of the adaptive comment clustering and representative selection
pipeline (worker/clustering.py, worker/process.py, backend/app/tasks.py,
backend/app/models.py).

The Python code is shallowly embedded:
numpy float arrays become lists of rationals, machine-level library calls
(the sentence embedder, KMeans, silhouette_score, PCA, the YouTube client and
the OpenAI summarizer) are parameters of the embedding, exceptions become
`Except String` or `Option` results, and the SQLAlchemy rows become plain
Lean structures.  All pure repository logic (noise filtering, hashing, cache
gate, silhouette search loop, axis rescaling, greedy representative
selection, the orchestrator state machine) is translated line by line.
-/

/-! ## Text preprocessing: clustering.py, `preprocess_texts` (lines 38-69) -/

/-- Python whitespace characters stripped by `str.strip()` (ASCII range). -/
def pyIsSpace (c : Char) : Bool :=
  c = ' ' || c = '\t' || c = '\n' || c = '\r' || c = Char.ofNat 11 || c = Char.ofNat 12

/-- Model of Python `str.strip()`: remove leading and trailing whitespace. -/
def pyStrip (s : String) : String :=
  String.mk (((s.data.dropWhile pyIsSpace).reverse.dropWhile pyIsSpace).reverse)

/-- Model of Python `str.lower()` (ASCII case folding; the noise tokens and
the URL schemes in the source are pure ASCII). -/
def lowerAscii (s : String) : String :=
  String.mk (s.data.map Char.toLower)

/-- Model of the regex class `\w` (word character): ASCII alphanumerics and
underscore, extended with the Japanese script ranges (hiragana, katakana and
CJK ideographs) that cover the Japanese noise tokens of the source
(`草`, `ワロタ`, `笑`).  Emoji and ASCII symbols are not word characters. -/
def isWordChar (c : Char) : Bool :=
  c.isAlphanum || c = '_' ||
  (0x3040 ≤ c.toNat && c.toNat ≤ 0x30FF) ||
  (0x4E00 ≤ c.toNat && c.toNat ≤ 0x9FFF)

/-- Minimum character count for a valid comment (clustering.py line 25). -/
def MIN_TEXT_LENGTH : ℕ := 8

/-- Low-content tokens of the third noise pattern, clustering.py line 21
(the fixed words of the alternation; the repeating patterns `w+`, `草+`,
`www+`, `笑+` and the literal `ワロタ` are handled separately). -/
def noiseTokens : List String :=
  ["first", "nice", "lol", "lmao", "wow", "cool", "great", "awesome",
   "good", "bad", "yes", "no", "ok", "okay", "omg", "wtf"]

/-- True when `s` is nonempty and consists of repetitions of the single
character `c` (regex `c+` anchored on both sides). -/
def allRepeat (c : Char) (s : String) : Bool :=
  !s.isEmpty && s.data.all (· = c)

/-- Model of `NOISE_REGEX.match(text)` being truthy (clustering.py lines
18-23, compiled with `re.IGNORECASE` and applied with `re.match`, which
anchors at the START of the string only).  The first pattern
`^https?://` has no end anchor, so it fires on any text that merely starts
with a URL scheme; the other two patterns (`^[^\w\s]+$` and the token
alternation `^(first|nice|...)$`) are anchored on both sides and require a
whole-string match.  `www+` and `w+` both collapse to "every character is
`w`" after case folding. -/
def noiseRegexMatch (s : String) : Bool :=
  let lower := lowerAscii s
  lower.data.take 7 = "http://".data || lower.data.take 8 = "https://".data ||
  (!s.isEmpty && s.data.all (fun c => !(isWordChar c) && !(pyIsSpace c))) ||
  noiseTokens.contains lower ||
  allRepeat 'w' lower ||
  allRepeat '草' s ||
  s = "ワロタ" ||
  allRepeat '笑' s

/-- Recursive worker for `preprocess_texts`: `i` is the index of the head of
the remaining list in the original input, `seen` the set of case-folded
texts already emitted (Python uses a `set`; a list models it). -/
def preprocessAux : List String → ℕ → List String → List String × List ℕ
  | [], _, _ => ([], [])
  | t :: rest, i, seen =>
    let s := pyStrip t
    if s.length < MIN_TEXT_LENGTH then preprocessAux rest (i + 1) seen
    else if noiseRegexMatch s then preprocessAux rest (i + 1) seen
    else if seen.contains (lowerAscii s) then preprocessAux rest (i + 1) seen
    else
      let r := preprocessAux rest (i + 1) (lowerAscii s :: seen)
      (s :: r.1, i :: r.2)

/-- Embedding of `preprocess_texts` (clustering.py lines 38-69): strip each
text, drop texts shorter than 8 characters, drop noise-regex matches, drop
case-insensitive duplicates; return surviving (stripped) texts together with
their original indices. -/
def preprocess_texts (texts : List String) : List String × List ℕ :=
  preprocessAux texts 0 []

/-! ## Content hash: process.py, `calc_comments_hash` (lines 37-40)

SHA-256 is implemented in full over `ℕ` (word arithmetic is explicit
`% 2^32`), so the hash of a concrete id list is computable inside Lean. -/

/-- Truncate to a 32-bit word. -/
def w32 (x : ℕ) : ℕ := x % 4294967296

/-- Rotate a 32-bit word right by `n`. -/
def rotr32 (n x : ℕ) : ℕ := w32 ((x >>> n) ||| (x <<< (32 - n)))

/-- SHA-256 Σ0. -/
def bigSigma0 (x : ℕ) : ℕ := (rotr32 2 x) ^^^ (rotr32 13 x) ^^^ (rotr32 22 x)

/-- SHA-256 Σ1. -/
def bigSigma1 (x : ℕ) : ℕ := (rotr32 6 x) ^^^ (rotr32 11 x) ^^^ (rotr32 25 x)

/-- SHA-256 σ0. -/
def smallSigma0 (x : ℕ) : ℕ := (rotr32 7 x) ^^^ (rotr32 18 x) ^^^ (x >>> 3)

/-- SHA-256 σ1. -/
def smallSigma1 (x : ℕ) : ℕ := (rotr32 17 x) ^^^ (rotr32 19 x) ^^^ (x >>> 10)

/-- SHA-256 choice function; complement is `2^32 - 1 - x` on 32-bit words. -/
def shaCh (x y z : ℕ) : ℕ := (x &&& y) ^^^ ((4294967295 - x) &&& z)

/-- SHA-256 majority function. -/
def shaMaj (x y z : ℕ) : ℕ := (x &&& y) ^^^ (x &&& z) ^^^ (y &&& z)

/-- SHA-256 round constants. -/
def shaK : List ℕ :=
  [1116352408, 1899447441, 3049323471, 3921009573, 961987163,
   1508970993, 2453635748, 2870763221, 3624381080, 310598401,
   607225278, 1426881987, 1925078388, 2162078206, 2614888103,
   3248222580, 3835390401, 4022224774, 264347078, 604807628,
   770255983, 1249150122, 1555081692, 1996064986, 2554220882,
   2821834349, 2952996808, 3210313671, 3336571891, 3584528711,
   113926993, 338241895, 666307205, 773529912, 1294757372,
   1396182291, 1695183700, 1986661051, 2177026350, 2456956037,
   2730485921, 2820302411, 3259730800, 3345764771, 3516065817,
   3600352804, 4094571909, 275423344, 430227734, 506948616,
   659060556, 883997877, 958139571, 1322822218, 1537002063,
   1747873779, 1955562222, 2024104815, 2227730452, 2361852424,
   2428436474, 2756734187, 3204031479, 3329325298]

/-- SHA-256 initial hash values. -/
def shaH0 : List ℕ :=
  [1779033703, 3144134277, 1013904242, 2773480762,
   1359893119, 2600822924, 528734635, 1541459225]

/-- SHA-256 padding: append `0x80`, zero bytes up to 56 mod 64, and the
64-bit big-endian bit length. -/
def padMessage (msg : List ℕ) : List ℕ :=
  let len := msg.length
  let zeros := (119 - len % 64) % 64
  let bitLen := 8 * len
  msg ++ [128] ++ List.replicate zeros 0 ++
    [(bitLen >>> 56) % 256, (bitLen >>> 48) % 256, (bitLen >>> 40) % 256, (bitLen >>> 32) % 256,
     (bitLen >>> 24) % 256, (bitLen >>> 16) % 256, (bitLen >>> 8) % 256, bitLen % 256]

/-- Split a byte list into 64-byte blocks. -/
def toBlocks (l : List ℕ) : List (List ℕ) :=
  if h : l = [] then [] else
    l.take 64 :: toBlocks (l.drop 64)
termination_by l.length
decreasing_by
  have hp := List.length_pos.mpr h
  simp only [List.length_drop]
  omega

/-- Group bytes into big-endian 32-bit words. -/
def bytesToWords : List ℕ → List ℕ
  | b0 :: b1 :: b2 :: b3 :: rest => (((b0 * 256 + b1) * 256 + b2) * 256 + b3) :: bytesToWords rest
  | _ => []

/-- Extend the 16 message-schedule words to 64. -/
def extendSchedule (ws : List ℕ) : List ℕ :=
  (List.range 48).foldl
    (fun acc _ =>
      let t := acc.length
      acc ++ [w32 (smallSigma1 (acc.getD (t - 2) 0) + acc.getD (t - 7) 0 +
                   smallSigma0 (acc.getD (t - 15) 0) + acc.getD (t - 16) 0)])
    ws

/-- One SHA-256 compression round; the state is the word list `[a,...,h]`. -/
def compressStep (st : List ℕ) (kw : ℕ × ℕ) : List ℕ :=
  let a := st.getD 0 0
  let b := st.getD 1 0
  let c := st.getD 2 0
  let d := st.getD 3 0
  let e := st.getD 4 0
  let f := st.getD 5 0
  let g := st.getD 6 0
  let h := st.getD 7 0
  let t1 := w32 (h + bigSigma1 e + shaCh e f g + kw.1 + kw.2)
  let t2 := w32 (bigSigma0 a + shaMaj a b c)
  [w32 (t1 + t2), a, b, c, w32 (d + t1), e, f, g]

/-- Process one 64-byte block into the running hash value. -/
def processBlock (hv : List ℕ) (block : List ℕ) : List ℕ :=
  let ws := extendSchedule (bytesToWords block)
  let st := (shaK.zip ws).foldl compressStep hv
  List.zipWith (fun x y => w32 (x + y)) hv st

/-- SHA-256 digest of a byte list, as eight 32-bit words. -/
def sha256Words (msg : List ℕ) : List ℕ :=
  (toBlocks (padMessage msg)).foldl processBlock shaH0

/-- Lowercase hexadecimal digit. -/
def hexDigit (n : ℕ) : Char :=
  if n < 10 then Char.ofNat (48 + n) else Char.ofNat (87 + n)

/-- Eight lowercase hex characters of a 32-bit word. -/
def wordToHex (x : ℕ) : List Char :=
  [hexDigit (x / 268435456 % 16), hexDigit (x / 16777216 % 16),
   hexDigit (x / 1048576 % 16), hexDigit (x / 65536 % 16),
   hexDigit (x / 4096 % 16), hexDigit (x / 256 % 16),
   hexDigit (x / 16 % 16), hexDigit (x % 16)]

/-- Model of `hashlib.sha256(...).hexdigest()`. -/
def sha256Hex (msg : List ℕ) : String :=
  String.mk ((sha256Words msg).flatMap wordToHex)

/-- UTF-8 encoding of one character, as byte values. -/
def utf8EncodeCharNat (c : Char) : List ℕ :=
  let n := c.toNat
  if n < 128 then [n]
  else if n < 2048 then [192 + n / 64, 128 + n % 64]
  else if n < 65536 then [224 + n / 4096, 128 + n / 64 % 64, 128 + n % 64]
  else [240 + n / 262144, 128 + n / 4096 % 64, 128 + n / 64 % 64, 128 + n % 64]

/-- Model of Python `str.encode("utf-8")`. -/
def utf8Bytes (s : String) : List ℕ :=
  s.data.flatMap utf8EncodeCharNat

/-- Code-point lexicographic comparison of character lists, matching Python
string comparison. -/
def charListLe : List Char → List Char → Bool
  | [], _ => true
  | _ :: _, [] => false
  | a :: as, b :: bs =>
    if a.toNat < b.toNat then true
    else if b.toNat < a.toNat then false
    else charListLe as bs

/-- Python `<=` on strings (code-point lexicographic order). -/
def strLe (a b : String) : Bool := charListLe a.data b.data

/-- Embedding of `calc_comments_hash` (process.py lines 37-40):
`hashlib.sha256("\n".join(sorted(comment_ids)).encode("utf-8")).hexdigest()`.
Python `sorted` on strings is an ascending code-point sort; equal keys are
identical strings, so the stable `insertionSort` computes the same list. -/
def calc_comments_hash (comment_ids : List String) : String :=
  sha256Hex (utf8Bytes (String.intercalate "\n"
    (List.insertionSort (fun a b => strLe a b = true) comment_ids)))

/-! ## Vectors

Embeddings are modelled as lists of rationals (numpy float32 vectors with
exact arithmetic); cosine similarity of the unit-norm embeddings is the
plain dot product, exactly as in the source. -/

/-- Dot product of two vectors (`a @ b` / `np.dot`). -/
def dotProd (a b : List ℚ) : ℚ := (List.zipWith (· * ·) a b).sum

/-- Model of `np.clip(x, lo, hi)`. -/
def rclip (x lo hi : ℚ) : ℚ := min (max x lo) hi

/-! ## Representative selection: clustering.py, `select_representatives`
(lines 195-260)

`np.log` on the float ratio is modelled by an arbitrary function
`pyLog : ℚ → ℚ` supplied as a parameter (the logarithm itself is external
numerics; every claim below holds for every choice of `pyLog`). -/

/-- Member indices of cluster `c`: model of `np.where(labels == c)[0]`
(ascending original order). -/
def clusterMembers (labels : List ℕ) (c : ℕ) : List ℕ :=
  (List.range labels.length).filter (fun i => labels.getD i 0 = c)

/-- Comparison used to model `np.argsort(-adjusted_sims)`: positions are
ordered by strictly descending key, ties broken by ascending position (a
deterministic refinement of numpy's unspecified tie order). -/
def argsortDescRel (keys : List ℚ) (p q : ℕ) : Bool :=
  if keys.getD p 0 = keys.getD q 0 then decide (p ≤ q) else decide (keys.getD q 0 < keys.getD p 0)

/-- Model of `np.argsort(-keys)`: positions `0..len-1` sorted by descending
key. -/
def argsortDesc (keys : List ℚ) : List ℕ :=
  List.insertionSort (fun p q => argsortDescRel keys p q = true) (List.range keys.length)

/-- Greedy walk of clustering.py lines 240-256: visit sorted positions, map
each position `rank_idx` to the member index `idxs[rank_idx]`, skip a
candidate whose embedding has dot product above `similarity_threshold` with
any already-selected embedding, stop at `top_k`.  `selected` accumulates in
reverse; the result is reversed back. -/
def greedyPick (embeddings : List (List ℚ)) (τ : ℚ) (top_k : ℕ) (idxs : List ℕ) :
    List ℕ → List ℕ → List ℕ
  | [], selected => selected.reverse
  | p :: rest, selected =>
    if top_k ≤ selected.length then selected.reverse
    else
      let actual := idxs.getD p 0
      let cand := embeddings.getD actual []
      if selected.any (fun j => τ < dotProd cand (embeddings.getD j [])) then
        greedyPick embeddings τ top_k idxs rest selected
      else
        greedyPick embeddings τ top_k idxs rest (actual :: selected)

/-- Centroid similarities of the members of cluster `c`
(`sims = embeddings[idxs] @ centroids[c]`, clustering.py line 224). -/
def clusterSims (embeddings : List (List ℚ)) (labels : List ℕ)
    (centroids : List (List ℚ)) (c : ℕ) : List ℚ :=
  (clusterMembers labels c).map
    (fun idx => dotProd (embeddings.getD idx []) (centroids.getD c []))

/-- Length boosts of the members of cluster `c`
(`1.0 + 0.1 * np.log(max(len(texts[idx]), 1) / min_length)`, lines
227-230). -/
def clusterBoosts (pyLog : ℚ → ℚ) (texts : List String) (labels : List ℕ)
    (min_length : ℕ) (c : ℕ) : List ℚ :=
  (clusterMembers labels c).map (fun idx =>
    1 + (1/10 : ℚ) * pyLog ((max (texts.getD idx "").length 1 : ℚ) / (min_length : ℚ)))

/-- Adjusted scores
(`adjusted_sims = sims * np.clip(length_boost, 0.5, 1.5)`, line 231),
aligned with the member list of cluster `c`. -/
def adjustedKeys (pyLog : ℚ → ℚ) (texts : List String) (embeddings : List (List ℚ))
    (labels : List ℕ) (centroids : List (List ℚ)) (min_length : ℕ) (c : ℕ) : List ℚ :=
  List.zipWith (fun s b => s * rclip b (1/2) (3/2))
    (clusterSims embeddings labels centroids c)
    (clusterBoosts pyLog texts labels min_length c)

/-- The loop body of `select_representatives` for one cluster `c`
(clustering.py lines 217-258). -/
def selectForCluster (pyLog : ℚ → ℚ) (texts : List String) (embeddings : List (List ℚ))
    (labels : List ℕ) (centroids : List (List ℚ)) (top_k min_length : ℕ)
    (similarity_threshold : ℚ) (c : ℕ) : List ℕ :=
  let idxs := clusterMembers labels c
  if idxs = [] then []
  else
    greedyPick embeddings similarity_threshold top_k idxs
      (argsortDesc (adjustedKeys pyLog texts embeddings labels centroids min_length c)) []

/-- Embedding of `select_representatives` (clustering.py lines 195-260).
Python defaults: `top_k = 3`, `min_length = 20`,
`similarity_threshold = 0.95`; process.py calls it with `top_k = 5`. -/
def select_representatives (pyLog : ℚ → ℚ) (texts : List String)
    (embeddings : List (List ℚ)) (labels : List ℕ) (centroids : List (List ℚ))
    (top_k min_length : ℕ) (similarity_threshold : ℚ) : List (List ℕ) :=
  (List.range centroids.length).map
    (selectForCluster pyLog texts embeddings labels centroids top_k min_length
      similarity_threshold)

/-! ## Cluster-count selection: clustering.py, `choose_k_by_silhouette`
(lines 92-142)

`KMeans(n_clusters=k, random_state=42).fit_predict` and `silhouette_score`
are external sklearn algorithms; they are modelled by an oracle with one
result per candidate `k` (the seed is fixed, so the labels are a function of
`k`).  `none` models a raised exception, absorbed by the bare `except` of
the search loop. -/

structure KOracle where
  fit : ℕ → Option (List ℕ)
  score : ℕ → Option ℚ

/-- Model of `np.bincount`: counts of the values `0..max` (empty for an
empty input, on which `.min()` then raises). -/
def bincount (labels : List ℕ) : List ℕ :=
  if labels = [] then []
  else (List.range (labels.foldr max 0 + 1)).map (fun v => labels.count v)

/-- Outcome of one candidate `k` of the silhouette search: `none` when the
KMeans fit raises, when `.min()` raises on an empty bincount, or when the
smallest cluster is below `min_cluster_size` (the `continue`); otherwise the
silhouette score (or `none` again if the scoring raises). -/
def candidateResult (oracle : KOracle) (min_cluster_size k : ℕ) : Option ℚ :=
  match oracle.fit k with
  | none => none
  | some labels =>
    match (bincount labels).min? with
    | none => none
    | some m => if m < min_cluster_size then none else oracle.score k

/-- The search loop state `(best_k, best_score)` folded over the candidate
list; a candidate replaces the state only on a strictly greater score. -/
def silhouetteFold (oracle : KOracle) (mcs : ℕ) : List ℕ → ℕ × ℚ → ℕ × ℚ
  | [], st => st
  | k :: ks, (bk, bs) =>
    match candidateResult oracle mcs k with
    | none => silhouetteFold oracle mcs ks (bk, bs)
    | some s =>
      if bs < s then silhouetteFold oracle mcs ks (k, s)
      else silhouetteFold oracle mcs ks (bk, bs)

/-- Embedding of `choose_k_by_silhouette` (clustering.py lines 92-142):
adjust the bounds (`k_min = max(2, k_min)`, `k_max = min(k_max, n-1)`),
return the adjusted `k_min` when the range is empty, otherwise fold the
search over `range(k_min, k_max + 1)` starting from
`(best_k, best_score) = (k_min, -1)`. -/
def choose_k_by_silhouette (oracle : KOracle) (n k_min k_max min_cluster_size : ℕ) : ℕ :=
  let kmin := max 2 k_min
  let kmax := min k_max (n - 1)
  if kmax < kmin then kmin
  else (silhouetteFold oracle min_cluster_size (List.range' kmin (kmax + 1 - kmin)) (kmin, -1)).1

/-! ## Partitioning and 2D projection: clustering.py, `cluster_comments`
(lines 145-192)

The final `KMeans` fit (labels and centroids) and the `PCA` projection are
external sklearn calls, modelled as parameters; an exception of the final
fit is not caught locally and propagates (`Except.error`). -/

/-- Per-axis rescaling of clustering.py lines 185-188: map the axis to
`[-1, 1]` by `2*(x - min)/(max - min) - 1` when `max > min`, and leave the
raw values untouched otherwise (no division by zero). -/
def rescaleAxis (xs : List ℚ) : List ℚ :=
  match xs.min?, xs.max? with
  | some mn, some mx =>
    if mn < mx then xs.map (fun x => 2 * (x - mn) / (mx - mn) - 1) else xs
  | _, _ => xs

/-- The 2D-projection part of `cluster_comments` (lines 180-190): for
`n >= 2`, run PCA and rescale each axis independently; for `n < 2`, return
`np.zeros((n, 2))`. -/
def projectTo2D (pca : List (List ℚ) → List (ℚ × ℚ)) (embeddings : List (List ℚ)) :
    List (ℚ × ℚ) :=
  if 2 ≤ embeddings.length then
    let coords := pca embeddings
    List.zip (rescaleAxis (coords.map Prod.fst)) (rescaleAxis (coords.map Prod.snd))
  else
    List.replicate embeddings.length ((0 : ℚ), (0 : ℚ))

structure ClusteringLib where
  kOracle : KOracle
  kmeans : List (List ℚ) → ℕ → Except String (List ℕ × List (List ℚ))
  pca : List (List ℚ) → List (ℚ × ℚ)

/-- Embedding of `cluster_comments` (clustering.py lines 145-192): empty
input short-circuits; otherwise `k` is the explicit `n_clusters` or the
silhouette choice, clamped by `k = min(k, n)`; the final KMeans yields
labels and centroids and the PCA branch yields 2D coordinates. -/
def cluster_comments (lib : ClusteringLib) (embeddings : List (List ℚ))
    (n_clusters : Option ℕ) : Except String (List ℕ × List (ℚ × ℚ) × List (List ℚ)) :=
  let n := embeddings.length
  if n = 0 then .ok ([], [], [])
  else
    let k0 := match n_clusters with
      | none => choose_k_by_silhouette lib.kOracle n 2 8 3
      | some k => k
    let k := min k0 n
    match lib.kmeans embeddings k with
    | .error e => .error e
    | .ok (labels, centroids) => .ok (labels, projectTo2D lib.pca embeddings, centroids)

/-! ## Persistence model: backend/app/models.py and backend/app/tasks.py

One analyzed video and its run record; SQLAlchemy rows become structures,
`None`-able columns become `Option`. -/

inductive StatusEnum where
  | queued
  | processing
  | done
  | failed
deriving DecidableEq, Repr

/-- Python truthiness of an optional string (`None` and `""` are falsy). -/
def pyTruthy : Option String → Bool
  | none => false
  | some s => !s.isEmpty

structure ClusterRow where
  label : String
  summary : Option String
  size : ℕ
  ord_x : ℚ
  ord_y : ℚ
  stance : Option String
  rep_comments_json : List (String × String)
deriving DecidableEq

structure VideoRow where
  title : Option String
  status : StatusEnum
  hash_version : Option String
  overall_summary : Option String
  issue_outline : Option String
  video_summary : Option String
  video_summary_status : String
deriving DecidableEq

structure JobRow where
  status : StatusEnum
  error_message : Option String
deriving DecidableEq

structure CommentRow where
  text : String
  like_count : ℕ
deriving DecidableEq

/-- Database state for one video id and one job id: the `videos` row, the
`jobs` row, and the `comments` and `clusters` rows of that video. -/
structure DBState where
  video : Option VideoRow
  job : Option JobRow
  comments : List CommentRow
  clusters : List ClusterRow
deriving DecidableEq

/-- Embedding of `set_job_status` (tasks.py lines 10-16): update status and
error message when the job row exists, no-op otherwise.  The error message
is overwritten on every call (`None` unless supplied). -/
def set_job_status (db : DBState) (status : StatusEnum) (error_message : Option String) :
    DBState :=
  { db with job := db.job.map (fun j => { j with status := status, error_message := error_message }) }

/-- Embedding of `set_video_status` (tasks.py lines 19-24). -/
def set_video_status (db : DBState) (status : StatusEnum) : DBState :=
  { db with video := db.video.map (fun v => { v with status := status }) }

/-- Embedding of `has_complete_analysis` (process.py lines 43-62): clusters
exist, every cluster has truthy label, summary and stance, the video row
exists with truthy `overall_summary` and `issue_outline`, and
`video_summary` is truthy or `video_summary_status` is not "pending". -/
def has_complete_analysis (db : DBState) : Bool :=
  if db.clusters = [] then false
  else if !(db.clusters.all fun c => !c.label.isEmpty && pyTruthy c.summary && pyTruthy c.stance)
    then false
  else
    match db.video with
    | none => false
    | some v =>
      if !(pyTruthy v.overall_summary) || !(pyTruthy v.issue_outline) then false
      else if !(pyTruthy v.video_summary) && v.video_summary_status = "pending" then false
      else true

/-- A comment as returned by the external comment source, plus the optional
`comment_id` key that process.py line 102 reads with
`c.get("comment_id", c["text"][:50])` (the YouTube client never supplies
it, so the fallback is the first 50 characters of the text). -/
structure FetchedComment where
  comment_id : Option String
  author : String
  text : String
  likes : ℕ
deriving DecidableEq

/-- The id hashed for a fetched comment (process.py line 102). -/
def fetchedId (c : FetchedComment) : String :=
  c.comment_id.getD (c.text.take 50)

/-- Embedding of `save_comments_to_db` (process.py lines 226-237):
delete-then-insert of the comments rows. -/
def save_comments_to_db (db : DBState) (comments_data : List FetchedComment) : DBState :=
  { db with comments := comments_data.map (fun cd => { text := cd.text, like_count := cd.likes }) }

/-- Embedding of `store_clustered_results` (tasks.py lines 140-205).  The
Python definition takes nine parameters
(`db, video_id, job_id, texts, labels, coords_2d, rep_indices_map,
cluster_labels, cluster_summaries=None`); `video_id` and `job_id` are
implicit in `DBState`.  Prior clusters are deleted, one row per entry of
`rep_indices_map` is inserted (note: the `stance` column is never assigned
and keeps its `None` default), and both statuses are set to `done`. -/
def store_clustered_results (db : DBState) (texts : List String) (labels : List ℕ)
    (coords_2d : List (ℚ × ℚ)) (rep_indices_map : List (List ℕ))
    (cluster_labels : List String) (cluster_summaries : Option (List String)) : DBState :=
  let newClusters := (List.range rep_indices_map.length).map (fun cluster_idx =>
    let size := labels.count cluster_idx
    let pts := ((List.range labels.length).filter (fun i => labels.getD i 0 = cluster_idx)).map
      (fun i => coords_2d.getD i ((0 : ℚ), (0 : ℚ)))
    let cx : ℚ := if pts = [] then 0 else (pts.map Prod.fst).sum / (pts.length : ℚ)
    let cy : ℚ := if pts = [] then 0 else (pts.map Prod.snd).sum / (pts.length : ℚ)
    let rep_comments := ((rep_indices_map.getD cluster_idx []).filter
      (fun idx => idx < texts.length)).map (fun idx => ("Unknown", texts.getD idx ""))
    let summary_text := match cluster_summaries with
      | some l =>
        if !l.isEmpty && cluster_idx < l.length then l.getD cluster_idx ""
        else "Clustered opinion group " ++ toString (cluster_idx + 1)
      | none => "Clustered opinion group " ++ toString (cluster_idx + 1)
    ({ label := cluster_labels.getD cluster_idx "", summary := some summary_text,
       size := size, ord_x := cx, ord_y := cy, stance := none,
       rep_comments_json := rep_comments } : ClusterRow))
  let db1 := { db with clusters := newClusters }
  set_job_status (set_video_status db1 .done) .done none

/-- Positional parameters accepted by the Python definition of
`store_clustered_results` (tasks.py lines 140-150): eight required plus the
defaulted `cluster_summaries`. -/
def store_clustered_results_max_args : ℕ := 9

/-- Positional arguments passed at the call site process.py lines 177-188:
`db, video_id, job_id, clean_texts, labels, coords_2d, rep_indices_map,
final_cluster_labels, cluster_summaries, cluster_stances`. -/
def store_clustered_results_call_args : ℕ := 10

/-- The `TypeError` Python raises at that call site because the argument
count exceeds the parameter count. -/
def storeCallTypeError : String :=
  "store_clustered_results() takes from 8 to 9 positional arguments but 10 were given"

/-! ## Orchestrator: process.py, `process_video` (lines 65-223)

External collaborators (YouTube client, transcript fetcher, OpenAI
summarizers, the sentence embedder and the sklearn library) are parameters;
`Except.error msg` models a raised exception with message `msg`. -/

structure Collab where
  fetch_video_info : Except String (String × String)
  fetch_transcript : Except String (Option String)
  summarize_video_content : String → String → String → Except String (Option String)
  fetch_comments : Except String (List FetchedComment)
  embed : List String → Except String (List (List ℚ))
  lib : ClusteringLib
  pyLog : ℚ → ℚ
  summarize_cluster : List String → String → Except String (String × String × String)
  summarize_overall : List (String × String × ℕ × String) → String → Except String (Option String)
  summarize_issue_outline : List (String × String × ℕ × String) → String → Option String →
    Except String (Option String)

/-- The cache gate condition of process.py line 115:
`video and video.hash_version == new_hash and has_complete_analysis(...)`. -/
def cache_hit (new_hash : String) (db : DBState) : Bool :=
  match db.video with
  | some v => (v.hash_version = some new_hash) && has_complete_analysis db
  | none => false

/-- The per-cluster LLM summarization loop of process.py lines 157-174: one
`(label, summary, stance)` triple per cluster, empty clusters getting the
fixed fallback without calling the service; a raised service exception
aborts the loop. -/
def summarizeClusters (c : Collab) (clean_texts : List String) (video_title : String) :
    List (List ℕ) → ℕ → Except String (List (String × String × String))
  | [], _ => .ok []
  | rep_indices :: rest, i =>
    let rep_texts := rep_indices.map (fun idx => clean_texts.getD idx "")
    match (if rep_texts = [] then
        .ok ("Group " ++ toString (i + 1), "No content", "neutral")
      else c.summarize_cluster rep_texts video_title) with
    | .error e => .error e
    | .ok lss =>
      match summarizeClusters c clean_texts video_title rest (i + 1) with
      | .error e => .error e
      | .ok restL => .ok (lss :: restL)

/-- Video-row metadata update of process.py lines 106-111: set the title,
keep a truthy video summary, and record the summary status
(`"ok"`/`"failed"` per lines 91 and 95). -/
def metaUpdatedDB (video_title : String) (video_summary : Option String)
    (db : DBState) : DBState :=
  { db with video := db.video.map (fun v =>
      { v with title := some video_title,
               video_summary :=
                 if pyTruthy video_summary then video_summary else v.video_summary,
               video_summary_status := if pyTruthy video_summary then "ok" else "failed" }) }

/-- Continuation of `process_video` after a cache miss (process.py lines
127-215), acting on the database whose stored hash was already updated:
save the fetched comments, short-circuit on fewer than 3 raw or clean
comments, else embed, cluster, select representatives, summarize — and then
hit the `TypeError` of the `store_clustered_results` call site (its 10
positional arguments exceed the 9 parameters of the definition), so the
guarded `store` branch is dead code. -/
def afterGate (c : Collab) (video_title : String) (video_summary : Option String)
    (comments_data : List FetchedComment) (db2 : DBState) : DBState × Option String :=
  let db3 := save_comments_to_db db2 comments_data
  let texts := comments_data.map (fun cd => cd.text)
  if texts.length < 3 then
    (set_video_status (set_job_status db3 .done (some "Not enough comments")) .done, none)
  else
    let clean_texts := (preprocess_texts texts).1
    if clean_texts.length < 3 then
      (set_video_status
        (set_job_status db3 .done (some "Not enough valid comments")) .done, none)
    else
      match c.embed clean_texts with
      | .error e => (db3, some e)
      | .ok embeddings =>
        match cluster_comments c.lib embeddings none with
        | .error e => (db3, some e)
        | .ok res =>
          let labels := res.1
          let coords_2d := res.2.1
          let centroids := res.2.2
          let rep_indices_map := select_representatives c.pyLog clean_texts
            embeddings labels centroids 5 20 (95/100 : ℚ)
          match summarizeClusters c clean_texts video_title rep_indices_map 0 with
          | .error e => (db3, some e)
          | .ok lss =>
            let final_cluster_labels := lss.map (fun t => t.1)
            let cluster_summaries := lss.map (fun t => t.2.1)
            let cluster_stances := lss.map (fun t => t.2.2)
            if store_clustered_results_call_args ≤ store_clustered_results_max_args
            then
              let db4 := store_clustered_results db3 clean_texts labels coords_2d
                rep_indices_map final_cluster_labels (some cluster_summaries)
              let clusters_data := (List.range rep_indices_map.length).map (fun i =>
                (final_cluster_labels.getD i "", cluster_summaries.getD i "",
                 labels.count i, cluster_stances.getD i ""))
              match c.summarize_overall clusters_data video_title with
              | .error e => (db4, some e)
              | .ok overall_summary =>
                match c.summarize_issue_outline clusters_data video_title
                  video_summary with
                | .error e => (db4, some e)
                | .ok issue_outline =>
                  let db5 := { db4 with video := db4.video.map (fun v =>
                    { v with
                      overall_summary := if pyTruthy overall_summary then
                        overall_summary else v.overall_summary,
                      issue_outline := if pyTruthy issue_outline then
                        issue_outline else v.issue_outline }) }
                  (db5, none)
            else
              (db3, some storeCallTypeError)

/-- The body of the `try` block of `process_video` (process.py lines
75-215), acting on a database already marked `processing`.  Returns the
database as mutated so far together with `some message` when an exception
is raised (to be handled by the `except` clause) or `none` on normal
return. -/
def process_video_body (c : Collab) (db0 : DBState) : DBState × Option String :=
  match c.fetch_video_info with
  | .error e => (db0, some e)
  | .ok info =>
    let video_title := info.1
    let description := info.2
    match c.fetch_transcript with
    | .error e => (db0, some e)
    | .ok transcript_text =>
      let transcriptTruthy := pyTruthy transcript_text
      match (if transcriptTruthy then
          c.summarize_video_content (transcript_text.getD "") video_title description
        else c.summarize_video_content "" video_title description) with
      | .error e => (db0, some e)
      | .ok video_summary =>
        match c.fetch_comments with
        | .error e => (db0, some e)
        | .ok comments_data =>
          let new_hash := calc_comments_hash (comments_data.map fetchedId)
          let db1 := metaUpdatedDB video_title video_summary db0
          if cache_hit new_hash db1 then
            (set_video_status (set_job_status db1 .done none) .done, none)
          else
            afterGate c video_title video_summary comments_data
              { db1 with video := db1.video.map (fun v =>
                  { v with hash_version := some new_hash }) }

/-- Entry marking of process.py lines 72-73: both rows to `processing`. -/
def markProcessing (db : DBState) : DBState :=
  set_video_status (set_job_status db .processing none) .processing

/-- Embedding of `process_video` (process.py lines 65-223): mark both rows
`processing`, run the body; on a raised exception mark both rows `failed`
with the captured message and re-raise (`Except.error`). -/
def process_video (c : Collab) (db : DBState) : DBState × Except String Unit :=
  match process_video_body c (markProcessing db) with
  | (db1, none) => (db1, .ok ())
  | (db1, some msg) =>
    (set_video_status (set_job_status db1 .failed (some msg)) .failed, .error msg)

/-- Concrete video row used by the closed instances below. -/
def wVideoRow : VideoRow :=
  { title := none, status := .queued, hash_version := none, overall_summary := none,
    issue_outline := none, video_summary := none, video_summary_status := "pending" }

/-- Concrete database state used by the closed instances below: one queued
video, one queued job, no comments, no clusters. -/
def wDB : DBState :=
  { video := some wVideoRow, job := some { status := .queued, error_message := none },
    comments := [], clusters := [] }

/-- Three well-formed fetched comments (distinct, long, noise-free). -/
def wFetched : List FetchedComment :=
  [{ comment_id := none, author := "a", text := "This video is interesting one", likes := 0 },
   { comment_id := none, author := "b", text := "I disagree with the main point", likes := 1 },
   { comment_id := none, author := "c", text := "Helpful explanation thanks a lot", likes := 2 }]

/-- Collaborator bundle whose first fetch raises. -/
def wCollabErr : Collab :=
  { fetch_video_info := .error "boom", fetch_transcript := .ok none,
    summarize_video_content := fun _ _ _ => .ok none, fetch_comments := .ok [],
    embed := fun _ => .ok [],
    lib := { kOracle := { fit := fun _ => none, score := fun _ => none },
             kmeans := fun _ _ => .ok ([], []), pca := fun _ => [] },
    pyLog := fun _ => 0,
    summarize_cluster := fun _ _ => .ok ("", "", ""),
    summarize_overall := fun _ _ => .ok none,
    summarize_issue_outline := fun _ _ _ => .ok none }

/-- Collaborator bundle in which every external call succeeds. -/
def wCollabOk : Collab :=
  { fetch_video_info := .ok ("Title", "Desc"), fetch_transcript := .ok none,
    summarize_video_content := fun _ _ _ => .ok (some "video summary"),
    fetch_comments := .ok wFetched,
    embed := fun ts => .ok (ts.map (fun _ => [1])),
    lib := { kOracle := { fit := fun _ => none, score := fun _ => none },
             kmeans := fun e k => .ok (e.map (fun _ => 0), List.replicate k [1]),
             pca := fun e => e.map (fun _ => ((0 : ℚ), (0 : ℚ))) },
    pyLog := fun _ => 0,
    summarize_cluster := fun _ _ => .ok ("L", "S", "neutral"),
    summarize_overall := fun _ _ => .ok (some "overall"),
    summarize_issue_outline := fun _ _ _ => .ok (some "outline") }

/-- Formula of spec section 4.6 for a member's adjusted score, written
pointwise from the spec's words for the refinement proof:
`adjusted = (dot of member embedding with centroid) *
clip(1 + 0.1*log(max(len(text),1)/min_length), 0.5, 1.5)`. -/
def specAdjusted (pyLog : ℚ → ℚ) (texts : List String) (embeddings : List (List ℚ))
    (centroid : List ℚ) (min_length : ℕ) (idx : ℕ) : ℚ :=
  dotProd (embeddings.getD idx []) centroid *
    rclip (1 + (1/10 : ℚ) * pyLog ((max (texts.getD idx "").length 1 : ℚ) /
      (min_length : ℚ))) (1/2) (3/2)

/-- Greedy walk of spec section 4.6, written from the spec's words over
member indices (not argsort positions): visit the given order, accept a
candidate exactly when its dot product with every already-accepted
representative is at most the threshold, stop at `top_k`. -/
def specGreedySelection (embeddings : List (List ℚ)) (τ : ℚ) (top_k : ℕ) :
    List ℕ → List ℕ → List ℕ
  | [], acc => acc.reverse
  | i :: rest, acc =>
    if top_k ≤ acc.length then acc.reverse
    else if acc.any (fun j => τ < dotProd (embeddings.getD i []) (embeddings.getD j [])) then
      specGreedySelection embeddings τ top_k rest acc
    else specGreedySelection embeddings τ top_k rest (i :: acc)

/-! ## Theorems -/

/-- Transfer of the `preprocessAux` invariants across one skipped input
element. -/
theorem preprocessAux_shift {res : List String × List ℕ} {t : String}
    {rest : List String} {i : ℕ}
    (H1 : res.1.length = res.2.length)
    (H2 : ∀ j ∈ res.2, i + 1 ≤ j)
    (H3 : res.2.Pairwise (· < ·))
    (H4 : ∀ p ∈ res.1.zip res.2, ∃ raw, rest[p.2 - (i + 1)]? = some raw ∧ p.1 = pyStrip raw) :
    res.1.length = res.2.length ∧ (∀ j ∈ res.2, i ≤ j) ∧ res.2.Pairwise (· < ·) ∧
    (∀ p ∈ res.1.zip res.2, ∃ raw, (t :: rest)[p.2 - i]? = some raw ∧ p.1 = pyStrip raw) := by
  refine ⟨H1, fun j hj => Nat.le_of_succ_le (H2 j hj), H3, ?_⟩
  intro p hp
  obtain ⟨raw, hraw, hstrip⟩ := H4 p hp
  have hmem := List.of_mem_zip (a := p.1) (b := p.2) hp
  have hge := H2 p.2 hmem.2
  have hsub : p.2 - i = (p.2 - (i + 1)) + 1 := by omega
  rw [hsub, List.getElem?_cons_succ]
  exact ⟨raw, hraw, hstrip⟩

/-- Invariants of the `preprocessAux` recursion: output lists have equal
length, indices are at least the starting index and strictly increasing,
and each output text is the stripped input text at its paired index. -/
theorem preprocessAux_sound (l : List String) :
    ∀ (i : ℕ) (seen : List String),
    (preprocessAux l i seen).1.length = (preprocessAux l i seen).2.length ∧
    (∀ j ∈ (preprocessAux l i seen).2, i ≤ j) ∧
    (preprocessAux l i seen).2.Pairwise (· < ·) ∧
    (∀ p ∈ (preprocessAux l i seen).1.zip (preprocessAux l i seen).2,
      ∃ raw, l[p.2 - i]? = some raw ∧ p.1 = pyStrip raw) := by
  induction l with
  | nil =>
    intro i seen
    simp [preprocessAux]
  | cons t rest ih =>
    intro i seen
    by_cases h1 : (pyStrip t).length < MIN_TEXT_LENGTH
    · have hrw : preprocessAux (t :: rest) i seen = preprocessAux rest (i + 1) seen := by
        simp only [preprocessAux, h1, if_true]
      rw [hrw]
      obtain ⟨H1, H2, H3, H4⟩ := ih (i + 1) seen
      exact preprocessAux_shift H1 H2 H3 H4
    · by_cases h2 : noiseRegexMatch (pyStrip t) = true
      · have hrw : preprocessAux (t :: rest) i seen = preprocessAux rest (i + 1) seen := by
          simp [preprocessAux, h1, h2]
        rw [hrw]
        obtain ⟨H1, H2, H3, H4⟩ := ih (i + 1) seen
        exact preprocessAux_shift H1 H2 H3 H4
      · by_cases h3 : seen.contains (lowerAscii (pyStrip t)) = true
        · have h3m : lowerAscii (pyStrip t) ∈ seen := by simpa using h3
          have hrw : preprocessAux (t :: rest) i seen = preprocessAux rest (i + 1) seen := by
            simp [preprocessAux, h1, h2, h3m]
          rw [hrw]
          obtain ⟨H1, H2, H3, H4⟩ := ih (i + 1) seen
          exact preprocessAux_shift H1 H2 H3 H4
        · have h3m : lowerAscii (pyStrip t) ∉ seen := by simpa using h3
          have hrw : preprocessAux (t :: rest) i seen =
              ((pyStrip t) :: (preprocessAux rest (i + 1) (lowerAscii (pyStrip t) :: seen)).1,
               i :: (preprocessAux rest (i + 1) (lowerAscii (pyStrip t) :: seen)).2) := by
            simp [preprocessAux, h1, h2, h3m]
          rw [hrw]
          obtain ⟨H1, H2, H3, H4⟩ := ih (i + 1) (lowerAscii (pyStrip t) :: seen)
          refine ⟨by simpa using H1, ?_, ?_, ?_⟩
          · intro j hj
            rcases List.mem_cons.mp hj with hj | hj
            · omega
            · exact Nat.le_of_succ_le (H2 j hj)
          · exact List.Pairwise.cons (fun j hj => Nat.lt_of_succ_le (H2 j hj)) H3
          · intro p hp
            rcases List.mem_cons.mp hp with hp | hp
            · subst hp
              simp
            · have hmem := List.of_mem_zip (a := p.1) (b := p.2) hp
              have hge := H2 p.2 hmem.2
              obtain ⟨raw, hraw, hstrip⟩ := H4 p hp
              have hsub : p.2 - i = (p.2 - (i + 1)) + 1 := by omega
              rw [hsub, List.getElem?_cons_succ]
              exact ⟨raw, hraw, hstrip⟩

/-- C10: for every input list of texts, the two outputs of
`preprocess_texts` have equal length, `original_indices` is strictly
increasing, and each clean text equals the whitespace-stripped raw text at
its paired original index (the stripped text is emitted, not the raw
one). -/
theorem preprocess_structure (texts : List String) :
    (preprocess_texts texts).1.length = (preprocess_texts texts).2.length ∧
    (preprocess_texts texts).2.Pairwise (· < ·) ∧
    (∀ p ∈ (preprocess_texts texts).1.zip (preprocess_texts texts).2,
      ∃ raw, texts[p.2]? = some raw ∧ p.1 = pyStrip raw) := by
  obtain ⟨H1, _, H3, H4⟩ := preprocessAux_sound texts 0 []
  refine ⟨H1, H3, ?_⟩
  intro p hp
  simpa using H4 p hp

/-- Witness for C10 on the duplicate-suppression example of the spec. -/
theorem preprocess_structure_witness :
    (preprocess_texts ["ok", "Great video!!", "great video!!"]).1.length =
      (preprocess_texts ["ok", "Great video!!", "great video!!"]).2.length ∧
    (preprocess_texts ["ok", "Great video!!", "great video!!"]).2.Pairwise (· < ·) :=
  ⟨(preprocess_structure ["ok", "Great video!!", "great video!!"]).1,
   (preprocess_structure ["ok", "Great video!!", "great video!!"]).2.1⟩

/-- C6 (refuted as stated, the code is the defect): the first noise pattern
`^https?://` carries no end anchor, and `re.match` anchors only at the
start, so a stripped text of length at least 8 that merely STARTS with a
URL scheme but continues with real content is dropped by
`preprocess_texts` — against both the specification (whole-string match
only) and the inline source comment "URLs only".  The text below survives
stripping unchanged, is 57 characters long, matches the noise regex, and is
dropped entirely. -/
theorem noise_url_anchor_bug :
    pyStrip "https://example.com is a great resource for learning math" =
      "https://example.com is a great resource for learning math" ∧
    MIN_TEXT_LENGTH ≤ "https://example.com is a great resource for learning math".length ∧
    noiseRegexMatch "https://example.com is a great resource for learning math" = true ∧
    preprocess_texts ["https://example.com is a great resource for learning math"] = ([], []) := by
  refine ⟨by decide, by decide, by decide, by decide⟩

/-- Elements below a `min?` result. -/
theorem min?_rat_spec {xs : List ℚ} {mn : ℚ} (h : xs.min? = some mn) :
    mn ∈ xs ∧ ∀ x ∈ xs, mn ≤ x := by
  haveI : Std.Antisymm (fun x1 x2 : ℚ => x1 ≤ x2) := ⟨fun h1 h2 => le_antisymm h1 h2⟩
  rw [List.min?_eq_some_iff le_refl min_choice (fun _ _ _ => le_min_iff)] at h
  exact h

/-- Elements above a `max?` result. -/
theorem max?_rat_spec {xs : List ℚ} {mx : ℚ} (h : xs.max? = some mx) :
    mx ∈ xs ∧ ∀ x ∈ xs, x ≤ mx := by
  haveI : Std.Antisymm (fun x1 x2 : ℚ => x1 ≤ x2) := ⟨fun h1 h2 => le_antisymm h1 h2⟩
  rw [List.max?_eq_some_iff le_refl max_choice (fun _ _ _ => max_le_iff)] at h
  exact h

/-- C7: the projector returns all-zero coordinates for fewer than 2 points;
for 2 or more points it rescales the two PCA axes independently; and on an
axis with minimum `mn` and maximum `mx`, when `mn < mx` every value is
mapped by `2*(x - mn)/(mx - mn) - 1` (so `-1` and `1` are attained and all
rescaled values lie in `[-1, 1]`), while when `mn = mx` the raw axis values
are kept unchanged — never dividing by zero. -/
theorem projector_rescale (pca : List (List ℚ) → List (ℚ × ℚ))
    (embeddings : List (List ℚ)) (xs : List ℚ) (mn mx : ℚ) :
    (embeddings.length < 2 →
       projectTo2D pca embeddings = List.replicate embeddings.length ((0 : ℚ), (0 : ℚ))) ∧
    (2 ≤ embeddings.length →
       projectTo2D pca embeddings =
         List.zip (rescaleAxis ((pca embeddings).map Prod.fst))
                  (rescaleAxis ((pca embeddings).map Prod.snd))) ∧
    (xs.min? = some mn → xs.max? = some mx →
       (mn < mx →
          rescaleAxis xs = xs.map (fun x => 2 * (x - mn) / (mx - mn) - 1) ∧
          (∀ y ∈ rescaleAxis xs, -1 ≤ y ∧ y ≤ 1) ∧
          (-1 : ℚ) ∈ rescaleAxis xs ∧ (1 : ℚ) ∈ rescaleAxis xs) ∧
       (mn = mx → rescaleAxis xs = xs)) := by
  refine ⟨?_, ?_, ?_⟩
  · intro h
    simp [projectTo2D, Nat.not_le.mpr h]
  · intro h
    simp [projectTo2D, h]
  · intro hmin hmax
    have hspec_min := min?_rat_spec hmin
    have hspec_max := max?_rat_spec hmax
    constructor
    · intro hlt
      have heq : rescaleAxis xs = xs.map (fun x => 2 * (x - mn) / (mx - mn) - 1) := by
        simp [rescaleAxis, hmin, hmax, hlt]
      have hd : (0 : ℚ) < mx - mn := by linarith
      refine ⟨heq, ?_, ?_, ?_⟩
      · intro y hy
        rw [heq] at hy
        obtain ⟨x, hx, rfl⟩ := List.mem_map.mp hy
        have h1 := hspec_min.2 x hx
        have h2 := hspec_max.2 x hx
        have h2d : 2 * (x - mn) / (mx - mn) = 2 * ((x - mn) / (mx - mn)) := by ring
        constructor
        · have hq : (0 : ℚ) ≤ (x - mn) / (mx - mn) := div_nonneg (by linarith) hd.le
          rw [h2d]; linarith
        · have hq : (x - mn) / (mx - mn) ≤ 1 := (div_le_one hd).mpr (by linarith)
          rw [h2d]; linarith
      · rw [heq]
        refine List.mem_map.mpr ⟨mn, hspec_min.1, ?_⟩
        rw [sub_self, mul_zero, zero_div]
        norm_num
      · rw [heq]
        refine List.mem_map.mpr ⟨mx, hspec_max.1, ?_⟩
        rw [mul_div_assoc, div_self hd.ne']
        norm_num
    · intro heq
      subst heq
      simp [rescaleAxis, hmin, hmax]

/-- Witness for C7: two points, a degenerate and a nondegenerate axis. -/
theorem projector_rescale_witness :
    rescaleAxis [(0 : ℚ), 1] = [-1, 1] ∧
    ((-1 : ℚ) ∈ rescaleAxis [(0 : ℚ), 1] ∧ (1 : ℚ) ∈ rescaleAxis [(0 : ℚ), 1]) ∧
    rescaleAxis [(5 : ℚ), 5] = [5, 5] ∧
    projectTo2D (fun _ => [((0 : ℚ), (5 : ℚ)), (1, 5)]) [[(1 : ℚ)], [2]] =
      List.zip (rescaleAxis [(0 : ℚ), 1]) (rescaleAxis [(5 : ℚ), 5]) := by
  have h := projector_rescale (fun _ => [((0 : ℚ), (5 : ℚ)), (1, 5)]) [[(1 : ℚ)], [2]]
    [(0 : ℚ), 1] 0 1
  have h5 := projector_rescale (fun _ => [((0 : ℚ), (5 : ℚ)), (1, 5)]) [[(1 : ℚ)], [2]]
    [(5 : ℚ), 5] 5 5
  have hmin : [(0 : ℚ), 1].min? = some 0 := by with_unfolding_all decide
  have hmax : [(0 : ℚ), 1].max? = some 1 := by with_unfolding_all decide
  have hmin5 : [(5 : ℚ), 5].min? = some 5 := by with_unfolding_all decide
  have hmax5 : [(5 : ℚ), 5].max? = some 5 := by with_unfolding_all decide
  have hres := (h.2.2 hmin hmax).1 (by norm_num)
  have hdeg := (h5.2.2 hmin5 hmax5).2 rfl
  have hmap : [(0 : ℚ), 1].map (fun x => 2 * (x - 0) / (1 - 0) - 1) = [-1, 1] := by
    simp
    norm_num
  refine ⟨hres.1.trans hmap, ⟨hres.2.2.1, hres.2.2.2⟩, hdeg, ?_⟩
  have hproj := h.2.1 (by norm_num)
  simpa using hproj

/-- The winning `best_k` of the search fold is either the initial one or a
member of the candidate list. -/
theorem silhouetteFold_fst_cases (oracle : KOracle) (mcs : ℕ) :
    ∀ (ks : List ℕ) (bk : ℕ) (bs : ℚ),
    (silhouetteFold oracle mcs ks (bk, bs)).1 = bk ∨
    (silhouetteFold oracle mcs ks (bk, bs)).1 ∈ ks := by
  intro ks
  induction ks with
  | nil =>
    intro bk bs
    left
    rfl
  | cons k ks ih =>
    intro bk bs
    have hfold : silhouetteFold oracle mcs (k :: ks) (bk, bs) =
        match candidateResult oracle mcs k with
        | none => silhouetteFold oracle mcs ks (bk, bs)
        | some s =>
          if bs < s then silhouetteFold oracle mcs ks (k, s)
          else silhouetteFold oracle mcs ks (bk, bs) := rfl
    cases hcr : candidateResult oracle mcs k with
    | none =>
      have hstep : silhouetteFold oracle mcs (k :: ks) (bk, bs) =
          silhouetteFold oracle mcs ks (bk, bs) := by rw [hfold, hcr]
      rw [hstep]
      rcases ih bk bs with h | h
      · exact Or.inl h
      · exact Or.inr (List.mem_cons_of_mem _ h)
    | some s =>
      have hstep : silhouetteFold oracle mcs (k :: ks) (bk, bs) =
          if bs < s then silhouetteFold oracle mcs ks (k, s)
          else silhouetteFold oracle mcs ks (bk, bs) := by rw [hfold, hcr]
      rw [hstep]
      by_cases hbs : bs < s
      · rw [if_pos hbs]
        rcases ih k s with h | h
        · right
          rw [h]
          exact List.mem_cons_self _ _
        · exact Or.inr (List.mem_cons_of_mem _ h)
      · rw [if_neg hbs]
        rcases ih bk bs with h | h
        · exact Or.inl h
        · exact Or.inr (List.mem_cons_of_mem _ h)

/-- C5 (corrected): when the adjusted range
`[max(2, k_min), min(k_max, n-1)]` is nonempty the selector returns `k`
with `2 ≤ k ≤ min(k_max, n-1)`; when the range is empty it returns the
ADJUSTED lower bound `max(2, k_min)` (for every oracle, hence without any
search), not the parameter `k_min` itself. -/
theorem choose_k_range (oracle : KOracle) (n k_min k_max mcs : ℕ) :
    (max 2 k_min ≤ min k_max (n - 1) →
       2 ≤ choose_k_by_silhouette oracle n k_min k_max mcs ∧
       choose_k_by_silhouette oracle n k_min k_max mcs ≤ min k_max (n - 1)) ∧
    (min k_max (n - 1) < max 2 k_min →
       choose_k_by_silhouette oracle n k_min k_max mcs = max 2 k_min) := by
  constructor
  · intro hle
    have hnot : ¬ (min k_max (n - 1) < max 2 k_min) := not_lt.mpr hle
    have hunf : choose_k_by_silhouette oracle n k_min k_max mcs =
        (silhouetteFold oracle mcs
          (List.range' (max 2 k_min) (min k_max (n - 1) + 1 - max 2 k_min))
          (max 2 k_min, -1)).1 := by
      simp only [choose_k_by_silhouette]
      rw [if_neg hnot]
    rw [hunf]
    rcases silhouetteFold_fst_cases oracle mcs
        (List.range' (max 2 k_min) (min k_max (n - 1) + 1 - max 2 k_min))
        (max 2 k_min) (-1) with h | h
    · rw [h]
      exact ⟨le_max_left _ _, hle⟩
    · have hm := List.mem_range'_1.mp h
      have h2 : 2 ≤ max 2 k_min := le_max_left _ _
      omega
  · intro hlt
    simp only [choose_k_by_silhouette]
    rw [if_pos hlt]

/-- Counterexample to C5 as stated: with one embedding vector and
`k_min = 1, k_max = 8` the valid range is empty, yet the selector returns
`max(2, 1) = 2`, not `k_min = 1`. -/
theorem choose_k_empty_range_cex :
    min 8 (1 - 1) < max 2 1 ∧
    choose_k_by_silhouette { fit := fun _ => none, score := fun _ => none } 1 1 8 3 ≠ 1 := by
  exact ⟨by decide, by decide⟩

/-- Witness for the amended C5 on a nonempty range. -/
theorem choose_k_range_witness :
    2 ≤ choose_k_by_silhouette { fit := fun _ => none, score := fun _ => none } 10 2 8 3 ∧
    choose_k_by_silhouette { fit := fun _ => none, score := fun _ => none } 10 2 8 3 ≤
      min 8 (10 - 1) :=
  (choose_k_range { fit := fun _ => none, score := fun _ => none } 10 2 8 3).1 (by decide)

/-- Full characterization of the search fold over a strictly ascending
candidate list: either no candidate scored strictly above the incoming
best score and the state is unchanged, or the final state is a scored
(non-rejected) candidate holding the maximum score, and every earlier
candidate scores strictly below it (so the first maximum in ascending
order wins, and later equal scores do not replace it). -/
theorem silhouetteFold_best (oracle : KOracle) (mcs : ℕ) :
    ∀ (ks : List ℕ), ks.Pairwise (· < ·) → ∀ (bk : ℕ) (bs : ℚ),
    (silhouetteFold oracle mcs ks (bk, bs) = (bk, bs) ∧
       ∀ k ∈ ks, ∀ s, candidateResult oracle mcs k = some s → s ≤ bs) ∨
    ((silhouetteFold oracle mcs ks (bk, bs)).1 ∈ ks ∧
       candidateResult oracle mcs (silhouetteFold oracle mcs ks (bk, bs)).1 =
         some (silhouetteFold oracle mcs ks (bk, bs)).2 ∧
       bs < (silhouetteFold oracle mcs ks (bk, bs)).2 ∧
       (∀ k ∈ ks, ∀ s, candidateResult oracle mcs k = some s →
          s ≤ (silhouetteFold oracle mcs ks (bk, bs)).2) ∧
       (∀ k ∈ ks, k < (silhouetteFold oracle mcs ks (bk, bs)).1 →
          ∀ s, candidateResult oracle mcs k = some s →
            s < (silhouetteFold oracle mcs ks (bk, bs)).2)) := by
  intro ks
  induction ks with
  | nil =>
    intro _ bk bs
    left
    exact ⟨rfl, by simp⟩
  | cons k₀ ks ih =>
    intro hpw bk bs
    have hlt : ∀ k ∈ ks, k₀ < k := (List.pairwise_cons.mp hpw).1
    have hpw' := (List.pairwise_cons.mp hpw).2
    have hfold : silhouetteFold oracle mcs (k₀ :: ks) (bk, bs) =
        match candidateResult oracle mcs k₀ with
        | none => silhouetteFold oracle mcs ks (bk, bs)
        | some s =>
          if bs < s then silhouetteFold oracle mcs ks (k₀, s)
          else silhouetteFold oracle mcs ks (bk, bs) := rfl
    cases hcr : candidateResult oracle mcs k₀ with
    | none =>
      have hstep : silhouetteFold oracle mcs (k₀ :: ks) (bk, bs) =
          silhouetteFold oracle mcs ks (bk, bs) := by rw [hfold, hcr]
      rw [hstep]
      rcases ih hpw' bk bs with ⟨heq, hall⟩ | ⟨hmem, hcrr, hbs2, hmax, hearly⟩
      · left
        refine ⟨heq, ?_⟩
        intro k hk s hs
        rcases List.mem_cons.mp hk with rfl | hk
        · rw [hcr] at hs
          cases hs
        · exact hall k hk s hs
      · right
        refine ⟨List.mem_cons_of_mem _ hmem, hcrr, hbs2, ?_, ?_⟩
        · intro k hk s hs
          rcases List.mem_cons.mp hk with rfl | hk
          · rw [hcr] at hs
            cases hs
          · exact hmax k hk s hs
        · intro k hk hklt s hs
          rcases List.mem_cons.mp hk with rfl | hk
          · rw [hcr] at hs
            cases hs
          · exact hearly k hk hklt s hs
    | some s₀ =>
      have hstep : silhouetteFold oracle mcs (k₀ :: ks) (bk, bs) =
          if bs < s₀ then silhouetteFold oracle mcs ks (k₀, s₀)
          else silhouetteFold oracle mcs ks (bk, bs) := by rw [hfold, hcr]
      by_cases hbs : bs < s₀
      · rw [hstep, if_pos hbs]
        rcases ih hpw' k₀ s₀ with ⟨heq, hall⟩ | ⟨hmem, hcrr, hbs2, hmax, hearly⟩
      -- the recursion kept (k₀, s₀): the head candidate is the winner
        · right
          rw [heq]
          refine ⟨List.mem_cons_self _ _, by simpa using hcr, hbs, ?_, ?_⟩
          · intro k hk s hs
            rcases List.mem_cons.mp hk with rfl | hk
            · rw [hcr] at hs
              injection hs with hss
              rw [← hss]
            · exact hall k hk s hs
          · intro k hk hklt s hs
            rcases List.mem_cons.mp hk with rfl | hk
            · exact absurd hklt (lt_irrefl _)
            · exact absurd hklt (not_lt.mpr (hlt k hk).le)
        · right
          refine ⟨List.mem_cons_of_mem _ hmem, hcrr, lt_trans hbs hbs2, ?_, ?_⟩
          · intro k hk s hs
            rcases List.mem_cons.mp hk with rfl | hk
            · rw [hcr] at hs
              injection hs with hss
              rw [← hss]
              exact le_of_lt hbs2
            · exact hmax k hk s hs
          · intro k hk hklt s hs
            rcases List.mem_cons.mp hk with rfl | hk
            · rw [hcr] at hs
              injection hs with hss
              rw [← hss]
              exact hbs2
            · exact hearly k hk hklt s hs
      · rw [hstep, if_neg hbs]
        rcases ih hpw' bk bs with ⟨heq, hall⟩ | ⟨hmem, hcrr, hbs2, hmax, hearly⟩
        · left
          refine ⟨heq, ?_⟩
          intro k hk s hs
          rcases List.mem_cons.mp hk with rfl | hk
          · rw [hcr] at hs
            injection hs with hss
            rw [← hss]
            exact not_lt.mp hbs
          · exact hall k hk s hs
        · right
          refine ⟨List.mem_cons_of_mem _ hmem, hcrr, hbs2, ?_, ?_⟩
          · intro k hk s hs
            rcases List.mem_cons.mp hk with rfl | hk
            · rw [hcr] at hs
              injection hs with hss
              rw [← hss]
              exact le_of_lt (lt_of_le_of_lt (not_lt.mp hbs) hbs2)
            · exact hmax k hk s hs
          · intro k hk hklt s hs
            rcases List.mem_cons.mp hk with rfl | hk
            · rw [hcr] at hs
              injection hs with hss
              rw [← hss]
              exact lt_of_le_of_lt (not_lt.mp hbs) hbs2
            · exact hearly k hk hklt s hs

/-- C4: provided some candidate in the adjusted range survives rejection
and scores above the `-1` sentinel, the chosen `k` is itself a scored
survivor — in particular its fitted labels have a smallest bincount entry
of at least `min_cluster_size`, so a `k` whose smallest cluster is below
the floor is never chosen — it carries the maximum score of the range, and
every smaller candidate scores strictly below it (ascending ties keep the
earliest winner: a later equal score never replaces it). -/
theorem silhouette_best_survivor (oracle : KOracle) (n k_min k_max mcs k₀ : ℕ) (s₀ : ℚ)
    (hrange : max 2 k_min ≤ min k_max (n - 1))
    (hk₀ : k₀ ∈ List.range' (max 2 k_min) (min k_max (n - 1) + 1 - max 2 k_min))
    (hcr : candidateResult oracle mcs k₀ = some s₀)
    (hs₀ : (-1 : ℚ) < s₀) :
    ∃ sres : ℚ,
      candidateResult oracle mcs (choose_k_by_silhouette oracle n k_min k_max mcs) =
        some sres ∧
      (∀ labels, oracle.fit (choose_k_by_silhouette oracle n k_min k_max mcs) = some labels →
         ∀ m, (bincount labels).min? = some m → mcs ≤ m) ∧
      (∀ k ∈ List.range' (max 2 k_min) (min k_max (n - 1) + 1 - max 2 k_min),
         ∀ s, candidateResult oracle mcs k = some s → s ≤ sres) ∧
      (∀ k ∈ List.range' (max 2 k_min) (min k_max (n - 1) + 1 - max 2 k_min),
         k < choose_k_by_silhouette oracle n k_min k_max mcs →
         ∀ s, candidateResult oracle mcs k = some s → s < sres) := by
  have hnot : ¬ (min k_max (n - 1) < max 2 k_min) := not_lt.mpr hrange
  have hunf : choose_k_by_silhouette oracle n k_min k_max mcs =
      (silhouetteFold oracle mcs
        (List.range' (max 2 k_min) (min k_max (n - 1) + 1 - max 2 k_min))
        (max 2 k_min, -1)).1 := by
    simp only [choose_k_by_silhouette]
    rw [if_neg hnot]
  have hpw : (List.range' (max 2 k_min) (min k_max (n - 1) + 1 - max 2 k_min)).Pairwise
      (· < ·) := List.pairwise_lt_range' _ _
  rcases silhouetteFold_best oracle mcs _ hpw (max 2 k_min) (-1) with
    ⟨_, hall⟩ | ⟨hmem, hcrr, _, hmax, hearly⟩
  · exact absurd (hall k₀ hk₀ s₀ hcr) (not_le.mpr hs₀)
  · refine ⟨(silhouetteFold oracle mcs
        (List.range' (max 2 k_min) (min k_max (n - 1) + 1 - max 2 k_min))
        (max 2 k_min, -1)).2, ?_, ?_, ?_, ?_⟩
    · rw [hunf]
      exact hcrr
    · intro labels hfit m hmin
      rw [hunf] at hfit
      have hc := hcrr
      simp only [candidateResult, hfit, hmin] at hc
      by_contra hcon
      rw [if_pos (not_le.mp hcon)] at hc
      cases hc
    · intro k hk s hs
      exact hmax k hk s hs
    · intro k hk hklt s hs
      rw [hunf] at hklt
      exact hearly k hk hklt s hs

/-- Witness for C4: range `[2, 8]` with one surviving candidate `k = 2`. -/
theorem silhouette_best_survivor_witness :
    ∃ sres : ℚ,
      candidateResult
        { fit := fun k => if k = 2 then some [0, 0, 0, 1, 1, 1] else none,
          score := fun k => if k = 2 then some 1 else none } 3
        (choose_k_by_silhouette
          { fit := fun k => if k = 2 then some [0, 0, 0, 1, 1, 1] else none,
            score := fun k => if k = 2 then some 1 else none } 10 2 8 3) = some sres ∧
      (∀ labels,
         (fun k => if k = 2 then some [0, 0, 0, 1, 1, 1] else none)
           (choose_k_by_silhouette
             { fit := fun k => if k = 2 then some [0, 0, 0, 1, 1, 1] else none,
               score := fun k => if k = 2 then some 1 else none } 10 2 8 3) = some labels →
         ∀ m, (bincount labels).min? = some m → 3 ≤ m) ∧
      (∀ k ∈ List.range' (max 2 2) (min 8 (10 - 1) + 1 - max 2 2),
         ∀ s, candidateResult
           { fit := fun k => if k = 2 then some [0, 0, 0, 1, 1, 1] else none,
             score := fun k => if k = 2 then some 1 else none } 3 k = some s → s ≤ sres) ∧
      (∀ k ∈ List.range' (max 2 2) (min 8 (10 - 1) + 1 - max 2 2),
         k < choose_k_by_silhouette
           { fit := fun k => if k = 2 then some [0, 0, 0, 1, 1, 1] else none,
             score := fun k => if k = 2 then some 1 else none } 10 2 8 3 →
         ∀ s, candidateResult
           { fit := fun k => if k = 2 then some [0, 0, 0, 1, 1, 1] else none,
             score := fun k => if k = 2 then some 1 else none } 3 k = some s → s < sres) :=
  silhouette_best_survivor
    { fit := fun k => if k = 2 then some [0, 0, 0, 1, 1, 1] else none,
      score := fun k => if k = 2 then some 1 else none } 10 2 8 3 2 1
    (by decide) (by decide) (by with_unfolding_all decide) (by with_unfolding_all decide)

/-- Dot product is symmetric (exact rational arithmetic). -/
theorem dotProd_comm (a b : List ℚ) : dotProd a b = dotProd b a := by
  unfold dotProd
  rw [List.zipWith_comm_of_comm (· * ·) mul_comm]

/-- Value of `getD` on a mapped range below the bound. -/
theorem getD_map_range {α : Type} (k c : ℕ) (f : ℕ → α) (d : α) (h : c < k) :
    ((List.range k).map f).getD c d = f c := by
  rw [List.getD_eq_getElem?_getD, List.getElem?_map, List.getElem?_range h]
  rfl

/-- Invariants carried through the greedy selection walk: given distinct
in-bound positions and an accumulator that is duplicate-free, drawn from
`idxs`, within the budget, pairwise below the similarity threshold and
disjoint from the candidates still to come, the final selection keeps all
four properties. -/
theorem greedyPick_invariant (embeddings : List (List ℚ)) (τ : ℚ) (top_k : ℕ)
    (idxs : List ℕ) (hnd : idxs.Nodup) :
    ∀ (order : List ℕ) (selected : List ℕ),
    order.Nodup →
    (∀ p ∈ order, p < idxs.length) →
    selected.Nodup →
    (∀ j ∈ selected, j ∈ idxs) →
    selected.length ≤ top_k →
    (∀ a ∈ selected, ∀ b ∈ selected, a ≠ b →
       dotProd (embeddings.getD a []) (embeddings.getD b []) ≤ τ) →
    (∀ p ∈ order, idxs.getD p 0 ∉ selected) →
    (greedyPick embeddings τ top_k idxs order selected).Nodup ∧
    (∀ j ∈ greedyPick embeddings τ top_k idxs order selected, j ∈ idxs) ∧
    (greedyPick embeddings τ top_k idxs order selected).length ≤ top_k ∧
    (∀ a ∈ greedyPick embeddings τ top_k idxs order selected,
       ∀ b ∈ greedyPick embeddings τ top_k idxs order selected, a ≠ b →
       dotProd (embeddings.getD a []) (embeddings.getD b []) ≤ τ) := by
  intro order
  induction order with
  | nil =>
    intro selected _ _ hsnd hsmem hslen hspw _
    refine ⟨List.nodup_reverse.mpr hsnd, ?_, ?_, ?_⟩
    · intro j hj
      exact hsmem j (List.mem_reverse.mp hj)
    · rw [greedyPick, List.length_reverse]
      exact hslen
    · intro a ha b hb hab
      exact hspw a (List.mem_reverse.mp ha) b (List.mem_reverse.mp hb) hab
  | cons p rest ih =>
    intro selected hond hobd hsnd hsmem hslen hspw hdisj
    have hond' : rest.Nodup := (List.nodup_cons.mp hond).2
    have hpnr : p ∉ rest := (List.nodup_cons.mp hond).1
    have hobd' : ∀ q ∈ rest, q < idxs.length := fun q hq => hobd q (List.mem_cons_of_mem _ hq)
    have hp : p < idxs.length := hobd p (List.mem_cons_self _ _)
    have hstep : greedyPick embeddings τ top_k idxs (p :: rest) selected =
        if top_k ≤ selected.length then selected.reverse
        else
          if selected.any (fun j =>
              τ < dotProd (embeddings.getD (idxs.getD p 0) []) (embeddings.getD j [])) then
            greedyPick embeddings τ top_k idxs rest selected
          else greedyPick embeddings τ top_k idxs rest (idxs.getD p 0 :: selected) := rfl
    by_cases htop : top_k ≤ selected.length
    · rw [hstep, if_pos htop]
      refine ⟨List.nodup_reverse.mpr hsnd, ?_, ?_, ?_⟩
      · intro j hj
        exact hsmem j (List.mem_reverse.mp hj)
      · rw [List.length_reverse]
        exact hslen
      · intro a ha b hb hab
        exact hspw a (List.mem_reverse.mp ha) b (List.mem_reverse.mp hb) hab
    · rw [hstep, if_neg htop]
      by_cases hdup : selected.any (fun j =>
          τ < dotProd (embeddings.getD (idxs.getD p 0) []) (embeddings.getD j [])) = true
      · rw [if_pos hdup]
        exact ih selected hond' hobd' hsnd hsmem hslen hspw
          (fun q hq => hdisj q (List.mem_cons_of_mem _ hq))
      · rw [if_neg hdup]
        have hnew : idxs.getD p 0 ∉ selected := hdisj p (List.mem_cons_self _ _)
        have hfalse : selected.any (fun j =>
            τ < dotProd (embeddings.getD (idxs.getD p 0) []) (embeddings.getD j [])) = false :=
          Bool.eq_false_iff.mpr hdup
        have hok : ∀ j ∈ selected,
            dotProd (embeddings.getD (idxs.getD p 0) []) (embeddings.getD j []) ≤ τ := by
          intro j hj
          have := List.any_eq_false.mp hfalse j hj
          simpa using this
        refine ih (idxs.getD p 0 :: selected) hond' hobd'
          (List.nodup_cons.mpr ⟨hnew, hsnd⟩) ?_ ?_ ?_ ?_
        · intro j hj
          rcases List.mem_cons.mp hj with rfl | hj
          · rw [List.getD_eq_getElem idxs 0 hp]
            exact List.getElem_mem hp
          · exact hsmem j hj
        · simpa using Nat.succ_le_of_lt (Nat.lt_of_not_le htop)
        · intro a ha b hb hab
          rcases List.mem_cons.mp ha with rfl | ha
          · rcases List.mem_cons.mp hb with rfl | hb
            · exact absurd rfl hab
            · exact hok b hb
          · rcases List.mem_cons.mp hb with rfl | hb
            · rw [dotProd_comm]
              exact hok a ha
            · exact hspw a ha b hb hab
        · intro q hq
          intro hmem
          rcases List.mem_cons.mp hmem with heq | hmem
          · have hq' : q < idxs.length := hobd' q hq
            rw [List.getD_eq_getElem idxs 0 hq', List.getD_eq_getElem idxs 0 hp] at heq
            have := (List.Nodup.getElem_inj_iff hnd).mp heq
            exact hpnr (this ▸ hq)
          · exact hdisj q (List.mem_cons_of_mem _ hq) hmem

/-- C3: for every cluster `c`, the selected representative list has at most
`top_k` entries, no duplicates, is a subset of the cluster's member indices,
any two distinct selections have embedding dot product (cosine similarity
under unit norm) at most `similarity_threshold`, and an empty cluster
yields an empty list.  This holds for every length-boost logarithm
`pyLog`. -/
theorem representatives_invariants (pyLog : ℚ → ℚ) (texts : List String)
    (embeddings : List (List ℚ)) (labels : List ℕ) (centroids : List (List ℚ))
    (top_k min_length : ℕ) (τ : ℚ) (c : ℕ) :
    ((select_representatives pyLog texts embeddings labels centroids top_k min_length
        τ).getD c []).length ≤ top_k ∧
    ((select_representatives pyLog texts embeddings labels centroids top_k min_length
        τ).getD c []).Nodup ∧
    (∀ i ∈ (select_representatives pyLog texts embeddings labels centroids top_k min_length
        τ).getD c [], i ∈ clusterMembers labels c) ∧
    (∀ a ∈ (select_representatives pyLog texts embeddings labels centroids top_k min_length
        τ).getD c [],
       ∀ b ∈ (select_representatives pyLog texts embeddings labels centroids top_k min_length
        τ).getD c [], a ≠ b →
       dotProd (embeddings.getD a []) (embeddings.getD b []) ≤ τ) ∧
    (clusterMembers labels c = [] →
       (select_representatives pyLog texts embeddings labels centroids top_k min_length
        τ).getD c [] = []) := by
  by_cases hc : c < centroids.length
  · have hsel : (select_representatives pyLog texts embeddings labels centroids top_k
        min_length τ).getD c [] =
        selectForCluster pyLog texts embeddings labels centroids top_k min_length τ c := by
      unfold select_representatives
      exact getD_map_range _ _ _ _ hc
    rw [hsel]
    by_cases hidx : clusterMembers labels c = []
    · have hnil : selectForCluster pyLog texts embeddings labels centroids top_k min_length
          τ c = [] := by
        simp [selectForCluster, hidx]
      rw [hnil]
      simp
    · have hsel2 : selectForCluster pyLog texts embeddings labels centroids top_k min_length
          τ c =
          greedyPick embeddings τ top_k (clusterMembers labels c)
            (argsortDesc (adjustedKeys pyLog texts embeddings labels centroids min_length c))
            [] := by
        simp [selectForCluster, hidx]
      rw [hsel2]
      have hnd : (clusterMembers labels c).Nodup :=
        List.Nodup.filter _ (List.nodup_range _)
      have hperm := List.perm_insertionSort
        (fun p q => argsortDescRel
          (adjustedKeys pyLog texts embeddings labels centroids min_length c) p q = true)
        (List.range
          (adjustedKeys pyLog texts embeddings labels centroids min_length c).length)
      have horder_nodup : (argsortDesc
          (adjustedKeys pyLog texts embeddings labels centroids min_length c)).Nodup :=
        hperm.symm.nodup (List.nodup_range _)
      have hkeylen : (adjustedKeys pyLog texts embeddings labels centroids
          min_length c).length = (clusterMembers labels c).length := by
        simp [adjustedKeys, clusterSims, clusterBoosts, List.length_zipWith]
      have horder_bd : ∀ p ∈ argsortDesc
          (adjustedKeys pyLog texts embeddings labels centroids min_length c),
          p < (clusterMembers labels c).length := by
        intro p hp
        have hmem := hperm.mem_iff.mp hp
        rw [List.mem_range, hkeylen] at hmem
        exact hmem
      obtain ⟨h1, h2, h3, h4⟩ := greedyPick_invariant embeddings τ top_k
        (clusterMembers labels c) hnd
        (argsortDesc (adjustedKeys pyLog texts embeddings labels centroids min_length c))
        [] horder_nodup horder_bd (by simp) (by simp) (by simp) (by simp) (by simp)
      exact ⟨h3, h1, h2, h4, fun h => absurd h hidx⟩
  · have hsel : (select_representatives pyLog texts embeddings labels centroids top_k
        min_length τ).getD c [] = [] := by
      unfold select_representatives
      rw [List.getD_eq_getElem?_getD, List.getElem?_eq_none]
      · rfl
      · simpa using not_lt.mp hc
    rw [hsel]
    simp

/-- Witness for C3 on a two-member cluster with budget one. -/
theorem representatives_invariants_witness :
    ((select_representatives (fun _ => 0) ["aaaaaaaaaaaa", "bbbbbbbbbbbb"]
        [[1], [1]] [0, 0] [[1]] 1 20 1).getD 0 []).length ≤ 1 ∧
    ((select_representatives (fun _ => 0) ["aaaaaaaaaaaa", "bbbbbbbbbbbb"]
        [[1], [1]] [0, 0] [[1]] 1 20 1).getD 0 []).Nodup :=
  ⟨(representatives_invariants (fun _ => 0) ["aaaaaaaaaaaa", "bbbbbbbbbbbb"]
      [[1], [1]] [0, 0] [[1]] 1 20 1 0).1,
   (representatives_invariants (fun _ => 0) ["aaaaaaaaaaaa", "bbbbbbbbbbbb"]
      [[1], [1]] [0, 0] [[1]] 1 20 1 0).2.1⟩

/-- The position-walking greedy of the source equals the index-walking
greedy of the spec on the order mapped through the member list. -/
theorem greedyPick_eq_spec (embeddings : List (List ℚ)) (τ : ℚ) (top_k : ℕ)
    (idxs : List ℕ) :
    ∀ (order : List ℕ) (acc : List ℕ),
    greedyPick embeddings τ top_k idxs order acc =
      specGreedySelection embeddings τ top_k (order.map (fun p => idxs.getD p 0)) acc := by
  intro order
  induction order with
  | nil =>
    intro acc
    rfl
  | cons p rest ih =>
    intro acc
    by_cases htop : top_k ≤ acc.length
    · simp [greedyPick, specGreedySelection, htop]
    · by_cases hdup : acc.any (fun j =>
          τ < dotProd (embeddings.getD (idxs.getD p 0) []) (embeddings.getD j [])) = true
      · simp [greedyPick, specGreedySelection, htop, hdup, ih]
      · simp [greedyPick, specGreedySelection, htop, hdup, ih]

/-- Mapping `getD` over the full index range reproduces the list. -/
theorem map_getD_range (l : List ℕ) :
    (List.range l.length).map (fun p => l.getD p 0) = l := by
  apply List.ext_getElem
  · simp
  · intro i h1 h2
    rw [List.getElem_map, List.getElem_range, List.getD_eq_getElem l 0 h2]

/-- Totality of the descending argsort comparison. -/
theorem argsortDescRel_total (keys : List ℚ) (a b : ℕ) :
    argsortDescRel keys a b = true ∨ argsortDescRel keys b a = true := by
  unfold argsortDescRel
  by_cases he : keys.getD a 0 = keys.getD b 0
  · rw [if_pos he, if_pos he.symm]
    rcases Nat.le_total a b with h | h
    · left
      exact decide_eq_true h
    · right
      exact decide_eq_true h
  · rw [if_neg he, if_neg (fun h => he h.symm)]
    rcases lt_or_gt_of_ne he with h | h
    · right
      exact decide_eq_true h
    · left
      exact decide_eq_true h

/-- Transitivity of the descending argsort comparison. -/
theorem argsortDescRel_trans (keys : List ℚ) (a b c : ℕ)
    (hab : argsortDescRel keys a b = true) (hbc : argsortDescRel keys b c = true) :
    argsortDescRel keys a c = true := by
  unfold argsortDescRel at hab hbc ⊢
  by_cases he1 : keys.getD a 0 = keys.getD b 0
  · rw [if_pos he1] at hab
    by_cases he2 : keys.getD b 0 = keys.getD c 0
    · rw [if_pos he2] at hbc
      rw [if_pos (he1.trans he2)]
      exact decide_eq_true (Nat.le_trans (of_decide_eq_true hab) (of_decide_eq_true hbc))
    · rw [if_neg he2] at hbc
      have hlt : keys.getD c 0 < keys.getD a 0 := he1 ▸ of_decide_eq_true hbc
      rw [if_neg (fun h => he2 (he1.symm.trans h))]
      exact decide_eq_true hlt
  · rw [if_neg he1] at hab
    have hba : keys.getD b 0 < keys.getD a 0 := of_decide_eq_true hab
    by_cases he2 : keys.getD b 0 = keys.getD c 0
    · rw [if_neg (fun h => he1 (h.trans he2.symm))]
      exact decide_eq_true (he2 ▸ hba)
    · rw [if_neg he2] at hbc
      have hcb : keys.getD c 0 < keys.getD b 0 := of_decide_eq_true hbc
      rw [if_neg (fun h => absurd (h ▸ lt_trans hcb hba) (lt_irrefl _))]
      exact decide_eq_true (lt_trans hcb hba)

/-- The argsort order is pairwise descending in its keys. -/
theorem argsortDesc_sorted (keys : List ℚ) :
    (argsortDesc keys).Pairwise (fun p q => keys.getD q 0 ≤ keys.getD p 0) := by
  have hs := @List.sorted_insertionSort ℕ
    (fun p q => argsortDescRel keys p q = true)
    (fun p q => instDecidableEqBool (argsortDescRel keys p q) true)
    ⟨argsortDescRel_total keys⟩ ⟨argsortDescRel_trans keys⟩
    (List.range keys.length)
  refine hs.imp ?_
  intro p q h
  unfold argsortDescRel at h
  by_cases he : keys.getD p 0 = keys.getD q 0
  · exact le_of_eq he.symm
  · rw [if_neg he] at h
    exact le_of_lt (of_decide_eq_true h)

/-- Value of the adjusted-score list at an in-range position: exactly the
spec's pointwise formula at the member index held there. -/
theorem adjustedKeys_getD (pyLog : ℚ → ℚ) (texts : List String)
    (embeddings : List (List ℚ)) (labels : List ℕ) (centroids : List (List ℚ))
    (min_length : ℕ) (c : ℕ) (p : ℕ) (hp : p < (clusterMembers labels c).length) :
    (adjustedKeys pyLog texts embeddings labels centroids min_length c).getD p 0 =
      specAdjusted pyLog texts embeddings (centroids.getD c []) min_length
        ((clusterMembers labels c).getD p 0) := by
  have hkeylen : (adjustedKeys pyLog texts embeddings labels centroids
      min_length c).length = (clusterMembers labels c).length := by
    simp [adjustedKeys, clusterSims, clusterBoosts, List.length_zipWith]
  have hp' : p < (adjustedKeys pyLog texts embeddings labels centroids
      min_length c).length := by
    rw [hkeylen]
    exact hp
  rw [List.getD_eq_getElem _ 0 hp', List.getD_eq_getElem _ 0 hp]
  unfold adjustedKeys clusterSims clusterBoosts specAdjusted
  rw [List.getElem_zipWith, List.getElem_map, List.getElem_map]

/-- C9: within each cluster the source selection is exactly the spec's
greedy walk over some visiting order that is a permutation of the cluster's
members sorted by descending adjusted score, where the adjusted score is
`(dot of member embedding with centroid) *
clip(1 + 0.1*log(max(len(text),1)/min_length), 0.5, 1.5)`; acceptance
requires dot product at most `similarity_threshold` against every earlier
acceptance and stops at `top_k`. -/
theorem representatives_order_spec (pyLog : ℚ → ℚ) (texts : List String)
    (embeddings : List (List ℚ)) (labels : List ℕ) (centroids : List (List ℚ))
    (top_k min_length : ℕ) (τ : ℚ) (c : ℕ) (hc : c < centroids.length) :
    ∃ order : List ℕ,
      order.Perm (clusterMembers labels c) ∧
      order.Pairwise (fun a b =>
        specAdjusted pyLog texts embeddings (centroids.getD c []) min_length b ≤
        specAdjusted pyLog texts embeddings (centroids.getD c []) min_length a) ∧
      (select_representatives pyLog texts embeddings labels centroids top_k min_length
        τ).getD c [] = specGreedySelection embeddings τ top_k order [] := by
  have hsel : (select_representatives pyLog texts embeddings labels centroids top_k
      min_length τ).getD c [] =
      selectForCluster pyLog texts embeddings labels centroids top_k min_length τ c := by
    unfold select_representatives
    exact getD_map_range _ _ _ _ hc
  by_cases hidx : clusterMembers labels c = []
  · refine ⟨[], by rw [hidx], by simp, ?_⟩
    rw [hsel]
    simp [selectForCluster, hidx, specGreedySelection]
  · have hkeylen : (adjustedKeys pyLog texts embeddings labels centroids
        min_length c).length = (clusterMembers labels c).length := by
      simp [adjustedKeys, clusterSims, clusterBoosts, List.length_zipWith]
    have hperm := List.perm_insertionSort
      (fun p q => argsortDescRel
        (adjustedKeys pyLog texts embeddings labels centroids min_length c) p q = true)
      (List.range
        (adjustedKeys pyLog texts embeddings labels centroids min_length c).length)
    have horder_bd : ∀ p ∈ argsortDesc
        (adjustedKeys pyLog texts embeddings labels centroids min_length c),
        p < (clusterMembers labels c).length := by
      intro p hp
      have hmem := hperm.mem_iff.mp hp
      rw [List.mem_range, hkeylen] at hmem
      exact hmem
    refine ⟨(argsortDesc (adjustedKeys pyLog texts embeddings labels centroids
        min_length c)).map (fun p => (clusterMembers labels c).getD p 0), ?_, ?_, ?_⟩
    · have h1 : ((argsortDesc (adjustedKeys pyLog texts embeddings labels centroids
          min_length c)).map (fun p => (clusterMembers labels c).getD p 0)).Perm
          ((List.range (adjustedKeys pyLog texts embeddings labels centroids
            min_length c).length).map (fun p => (clusterMembers labels c).getD p 0)) :=
        hperm.map _
      rw [hkeylen, map_getD_range] at h1
      exact h1
    · rw [List.pairwise_map]
      have hsorted := argsortDesc_sorted
        (adjustedKeys pyLog texts embeddings labels centroids min_length c)
      refine hsorted.imp_of_mem ?_
      intro a b ha hb h
      rw [adjustedKeys_getD pyLog texts embeddings labels centroids min_length c a
          (horder_bd a ha),
        adjustedKeys_getD pyLog texts embeddings labels centroids min_length c b
          (horder_bd b hb)] at h
      exact h
    · rw [hsel]
      have hsel2 : selectForCluster pyLog texts embeddings labels centroids top_k
          min_length τ c =
          greedyPick embeddings τ top_k (clusterMembers labels c)
            (argsortDesc (adjustedKeys pyLog texts embeddings labels centroids
              min_length c)) [] := by
        simp [selectForCluster, hidx]
      rw [hsel2, greedyPick_eq_spec]

/-- Witness for C9 on a two-member cluster. -/
theorem representatives_order_spec_witness :
    ∃ order : List ℕ,
      order.Perm (clusterMembers [0, 0] 0) ∧
      order.Pairwise (fun a b =>
        specAdjusted (fun _ => 0) ["aaaaaaaaaaaa", "bbbbbbbbbbbb"] [[1], [1]]
          ([[(1 : ℚ)]].getD 0 []) 20 b ≤
        specAdjusted (fun _ => 0) ["aaaaaaaaaaaa", "bbbbbbbbbbbb"] [[1], [1]]
          ([[(1 : ℚ)]].getD 0 []) 20 a) ∧
      (select_representatives (fun _ => 0) ["aaaaaaaaaaaa", "bbbbbbbbbbbb"]
        [[1], [1]] [0, 0] [[1]] 1 20 1).getD 0 [] =
        specGreedySelection [[1], [1]] 1 1 order [] :=
  representatives_order_spec (fun _ => 0) ["aaaaaaaaaaaa", "bbbbbbbbbbbb"]
    [[1], [1]] [0, 0] [[1]] 1 20 1 0 (by decide)

/-- C8: the orchestrator marks both the run record and the video row
`processing` on entry, and when the body raises it marks both `failed`,
records the exception message on the run record, and re-raises the same
exception (`Except.error` with the same message); a normal body return is
passed through as success. -/
theorem orchestrator_failure_marking (c : Collab) (db : DBState) :
    (∀ j, db.job = some j →
       (markProcessing db).job =
         some { j with status := StatusEnum.processing, error_message := none }) ∧
    (∀ v, db.video = some v →
       (markProcessing db).video = some { v with status := StatusEnum.processing }) ∧
    (∀ db1 msg, process_video_body c (markProcessing db) = (db1, some msg) →
       process_video c db =
         (set_video_status (set_job_status db1 .failed (some msg)) .failed,
          Except.error msg) ∧
       (∀ j, db1.job = some j →
          (process_video c db).1.job =
            some { status := StatusEnum.failed, error_message := some msg }) ∧
       (∀ v, db1.video = some v →
          (process_video c db).1.video.map VideoRow.status = some StatusEnum.failed)) ∧
    (∀ db1, process_video_body c (markProcessing db) = (db1, none) →
       process_video c db = (db1, Except.ok ())) := by
  refine ⟨?_, ?_, ?_, ?_⟩
  · intro j hj
    simp [markProcessing, set_job_status, set_video_status, hj]
  · intro v hv
    simp [markProcessing, set_job_status, set_video_status, hv]
  · intro db1 msg heq
    have hpv : process_video c db =
        (set_video_status (set_job_status db1 .failed (some msg)) .failed,
         Except.error msg) := by
      simp only [process_video, heq]
    refine ⟨hpv, ?_, ?_⟩
    · intro j hj
      rw [hpv]
      simp [set_job_status, set_video_status, hj]
    · intro v hv
      rw [hpv]
      simp [set_job_status, set_video_status, hv]
  · intro db1 heq
    simp only [process_video, heq]

/-- Witness for C8: the first fetch raises `"boom"`, both rows end
`failed`, the message is recorded, and the exception is re-raised. -/
theorem orchestrator_failure_marking_witness :
    process_video wCollabErr wDB =
      (set_video_status (set_job_status (markProcessing wDB) .failed (some "boom")) .failed,
       Except.error "boom") ∧
    (process_video wCollabErr wDB).1.job =
      some { status := StatusEnum.failed, error_message := some "boom" } ∧
    (process_video wCollabErr wDB).1.video.map VideoRow.status = some StatusEnum.failed := by
  have h := (orchestrator_failure_marking wCollabErr wDB).2.2.1 (markProcessing wDB)
    "boom" rfl
  refine ⟨h.1, ?_, ?_⟩
  · exact h.2.1 { status := .processing, error_message := none } rfl
  · exact h.2.2 { wVideoRow with status := .processing } rfl

/-- Every exit of the post-gate continuation keeps the saved comment rows
and leaves the stored hash of its input database untouched. -/
theorem afterGate_proj (c : Collab) (vt : String) (vs : Option String)
    (comments_data : List FetchedComment) (db2 : DBState) :
    (afterGate c vt vs comments_data db2).1.comments =
      comments_data.map (fun cd => ({ text := cd.text, like_count := cd.likes } : CommentRow)) ∧
    (afterGate c vt vs comments_data db2).1.video.map VideoRow.hash_version =
      db2.video.map VideoRow.hash_version := by
  have harity : ¬ (store_clustered_results_call_args ≤ store_clustered_results_max_args) := by
    decide
  unfold afterGate
  refine ⟨?_, ?_⟩ <;>
  · repeat' split
    all_goals try (exfalso; exact harity (by assumption))
    all_goals try simp [save_comments_to_db, set_job_status, set_video_status, Option.map_map]
    all_goals repeat' split
    all_goals try simp [save_comments_to_db, set_job_status, set_video_status, Option.map_map]
    all_goals (cases db2.video <;> rfl)

/-- C2: once fetching succeeds, the gate of process.py line 115 skips the
pipeline and marks both rows `done` exactly when the SHA-256 hash of the
newline-joined sorted comment ids equals the stored hash AND the
completeness predicate holds on the stored results (so an unchanged raw
comment set with a complete prior analysis — the second-run situation —
recomputes nothing and leaves hash, comments and clusters untouched); in
every other case the stored hash is updated to the new hash and the
pipeline re-runs, replacing the stored comment rows. -/
theorem cache_gate_iff (c : Collab) (db : DBState) (v : VideoRow) (j : JobRow)
    (title desc : String) (tr vs : Option String) (fetched : List FetchedComment)
    (hv : db.video = some v) (hj : db.job = some j)
    (hinfo : c.fetch_video_info = .ok (title, desc))
    (htr : c.fetch_transcript = .ok tr)
    (hsum : ∀ a b d, c.summarize_video_content a b d = .ok vs)
    (hcom : c.fetch_comments = .ok fetched) :
    (cache_hit (calc_comments_hash (fetched.map fetchedId))
        (metaUpdatedDB title vs (markProcessing db)) = true ↔
      (v.hash_version = some (calc_comments_hash (fetched.map fetchedId)) ∧
       has_complete_analysis (metaUpdatedDB title vs (markProcessing db)) = true)) ∧
    (cache_hit (calc_comments_hash (fetched.map fetchedId))
        (metaUpdatedDB title vs (markProcessing db)) = true →
      process_video c db =
        (set_video_status (set_job_status (metaUpdatedDB title vs (markProcessing db))
          .done none) .done, Except.ok ()) ∧
      (process_video c db).1.clusters = db.clusters ∧
      (process_video c db).1.comments = db.comments ∧
      (process_video c db).1.video.map VideoRow.hash_version = some v.hash_version ∧
      (process_video c db).1.job.map JobRow.status = some StatusEnum.done ∧
      (process_video c db).1.video.map VideoRow.status = some StatusEnum.done) ∧
    (cache_hit (calc_comments_hash (fetched.map fetchedId))
        (metaUpdatedDB title vs (markProcessing db)) = false →
      (process_video c db).1.video.map VideoRow.hash_version =
        some (some (calc_comments_hash (fetched.map fetchedId))) ∧
      (process_video c db).1.comments =
        fetched.map (fun cd => ({ text := cd.text, like_count := cd.likes } : CommentRow))) := by
  have hbody : process_video_body c (markProcessing db) =
      (if cache_hit (calc_comments_hash (fetched.map fetchedId))
          (metaUpdatedDB title vs (markProcessing db)) then
        (set_video_status (set_job_status (metaUpdatedDB title vs (markProcessing db))
          .done none) .done, none)
      else
        afterGate c title vs fetched
          { metaUpdatedDB title vs (markProcessing db) with
            video := (metaUpdatedDB title vs (markProcessing db)).video.map (fun w =>
              { w with hash_version := some (calc_comments_hash (fetched.map fetchedId)) }) }) := by
    simp only [process_video_body, hinfo, htr, hsum, hcom, ite_self]
  have hdb1v : (metaUpdatedDB title vs (markProcessing db)).video =
      some { v with status := StatusEnum.processing, title := some title,
                    video_summary := (if pyTruthy vs then vs else v.video_summary),
                    video_summary_status := (if pyTruthy vs then "ok" else "failed") } := by
    simp [metaUpdatedDB, markProcessing, set_video_status, set_job_status, hv]
  have hdb1j : (metaUpdatedDB title vs (markProcessing db)).job =
      some { j with status := .processing, error_message := none } := by
    simp [metaUpdatedDB, markProcessing, set_video_status, set_job_status, hj]
  refine ⟨?_, ?_, ?_⟩
  · simp [cache_hit, hdb1v, Bool.and_eq_true, decide_eq_true_iff]
  · intro hhit
    have hb2 : process_video_body c (markProcessing db) =
        (set_video_status (set_job_status (metaUpdatedDB title vs (markProcessing db))
          .done none) .done, none) := by
      rw [hbody, if_pos hhit]
    have hpv : process_video c db =
        (set_video_status (set_job_status (metaUpdatedDB title vs (markProcessing db))
          .done none) .done, Except.ok ()) := by
      simp only [process_video, hb2]
    refine ⟨hpv, ?_, ?_, ?_, ?_, ?_⟩
    · rw [hpv]
      simp [set_job_status, set_video_status, metaUpdatedDB, markProcessing]
    · rw [hpv]
      simp [set_job_status, set_video_status, metaUpdatedDB, markProcessing]
    · rw [hpv]
      simp [set_job_status, set_video_status, hdb1v]
    · rw [hpv]
      simp [set_job_status, set_video_status, hdb1j]
    · rw [hpv]
      simp [set_job_status, set_video_status, hdb1v]
  · intro hmiss
    have hb2 : process_video_body c (markProcessing db) =
        afterGate c title vs fetched
          { metaUpdatedDB title vs (markProcessing db) with
            video := (metaUpdatedDB title vs (markProcessing db)).video.map (fun w =>
              { w with hash_version := some (calc_comments_hash (fetched.map fetchedId)) }) } := by
      rw [hbody, if_neg (by simp [hmiss])]
    obtain ⟨hcom3, hhash3⟩ := afterGate_proj c title vs fetched
      { metaUpdatedDB title vs (markProcessing db) with
        video := (metaUpdatedDB title vs (markProcessing db)).video.map (fun w =>
          { w with hash_version := some (calc_comments_hash (fetched.map fetchedId)) }) }
    have hhash2 : ({ metaUpdatedDB title vs (markProcessing db) with
        video := (metaUpdatedDB title vs (markProcessing db)).video.map (fun w =>
          { w with hash_version := some (calc_comments_hash (fetched.map fetchedId)) }) } :
          DBState).video.map VideoRow.hash_version =
        some (some (calc_comments_hash (fetched.map fetchedId))) := by
      simp [hdb1v]
    rw [hhash2] at hhash3
    cases hag : afterGate c title vs fetched
      { metaUpdatedDB title vs (markProcessing db) with
        video := (metaUpdatedDB title vs (markProcessing db)).video.map (fun w =>
          { w with hash_version := some (calc_comments_hash (fetched.map fetchedId)) }) } with
    | mk dbf o =>
      rw [hag] at hcom3 hhash3
      cases o with
      | none =>
        have hpv : process_video c db = (dbf, Except.ok ()) := by
          simp only [process_video, hb2, hag]
        rw [hpv]
        exact ⟨hhash3, hcom3⟩
      | some msg =>
        have hpv : process_video c db =
            (set_video_status (set_job_status dbf .failed (some msg)) .failed,
             Except.error msg) := by
          simp only [process_video, hb2, hag]
        rw [hpv]
        constructor
        · simp only [set_job_status, set_video_status] at hhash3 ⊢
          rw [← hhash3]
          cases dbf.video <;> rfl
        · simpa [set_job_status, set_video_status] using hcom3

/-- Witness for C2 with concrete collaborators and database. -/
theorem cache_gate_iff_witness :
    (cache_hit (calc_comments_hash (wFetched.map fetchedId))
        (metaUpdatedDB "Title" (some "video summary") (markProcessing wDB)) = true ↔
      (wVideoRow.hash_version = some (calc_comments_hash (wFetched.map fetchedId)) ∧
       has_complete_analysis (metaUpdatedDB "Title" (some "video summary")
         (markProcessing wDB)) = true)) ∧
    (cache_hit (calc_comments_hash (wFetched.map fetchedId))
        (metaUpdatedDB "Title" (some "video summary") (markProcessing wDB)) = true →
      process_video wCollabOk wDB =
        (set_video_status (set_job_status (metaUpdatedDB "Title" (some "video summary")
          (markProcessing wDB)) .done none) .done, Except.ok ()) ∧
      (process_video wCollabOk wDB).1.clusters = wDB.clusters ∧
      (process_video wCollabOk wDB).1.comments = wDB.comments ∧
      (process_video wCollabOk wDB).1.video.map VideoRow.hash_version =
        some wVideoRow.hash_version ∧
      (process_video wCollabOk wDB).1.job.map JobRow.status = some StatusEnum.done ∧
      (process_video wCollabOk wDB).1.video.map VideoRow.status = some StatusEnum.done) ∧
    (cache_hit (calc_comments_hash (wFetched.map fetchedId))
        (metaUpdatedDB "Title" (some "video summary") (markProcessing wDB)) = false →
      (process_video wCollabOk wDB).1.video.map VideoRow.hash_version =
        some (some (calc_comments_hash (wFetched.map fetchedId))) ∧
      (process_video wCollabOk wDB).1.comments =
        wFetched.map (fun cd => ({ text := cd.text, like_count := cd.likes } : CommentRow))) :=
  cache_gate_iff wCollabOk wDB wVideoRow { status := .queued, error_message := none }
    "Title" "Desc" none (some "video summary") wFetched rfl rfl rfl rfl
    (fun _ _ _ => rfl) rfl

/-- The per-cluster summarization loop succeeds whenever the external
summarizer never raises. -/
theorem summarizeClusters_ok (c : Collab) (ct : List String) (vt : String)
    (h : ∀ ts s, ∃ r, c.summarize_cluster ts s = .ok r) :
    ∀ (reps : List (List ℕ)) (i : ℕ),
    ∃ out, summarizeClusters c ct vt reps i = .ok out := by
  intro reps
  induction reps with
  | nil =>
    intro i
    exact ⟨[], rfl⟩
  | cons rep rest ih =>
    intro i
    obtain ⟨out, hout⟩ := ih (i + 1)
    have hstep : summarizeClusters c ct vt (rep :: rest) i =
        match (if rep.map (fun idx => ct.getD idx "") = [] then
            Except.ok ("Group " ++ toString (i + 1), "No content", "neutral")
          else c.summarize_cluster (rep.map (fun idx => ct.getD idx "")) vt) with
        | .error e => .error e
        | .ok lss =>
          match summarizeClusters c ct vt rest (i + 1) with
          | .error e => .error e
          | .ok restL => .ok (lss :: restL) := rfl
    by_cases hre : rep.map (fun idx => ct.getD idx "") = []
    · refine ⟨("Group " ++ toString (i + 1), "No content", "neutral") :: out, ?_⟩
      rw [hstep, if_pos hre]
      simp [hout]
    · obtain ⟨r, hr⟩ := h (rep.map (fun idx => ct.getD idx "")) vt
      refine ⟨r :: out, ?_⟩
      rw [hstep, if_neg hre, hr]
      simp [hout]

/-- C1 (refuted as stated, the code is the defect): even when fetching
succeeds, at least 3 clean comments survive, the cache gate misses and NO
external collaborator raises, the run cannot complete: the call at
process.py lines 177-188 passes 10 positional arguments
(`cluster_stances` included) to `store_clustered_results`, whose definition
accepts at most 9, so Python raises `TypeError` before any cluster row is
written; both statuses end `failed` (not `done`), the message is recorded,
the exception propagates, and the prior cluster rows are never replaced
(the `stance` column, which the claim says the new rows carry, is never
assigned by `store_clustered_results` at all). -/
theorem store_call_arity_bug (c : Collab) (db : DBState) (v : VideoRow) (j : JobRow)
    (title desc : String) (tr vs : Option String) (fetched : List FetchedComment)
    (hv : db.video = some v) (hj : db.job = some j)
    (hinfo : c.fetch_video_info = .ok (title, desc))
    (htr : c.fetch_transcript = .ok tr)
    (hsum : ∀ a b d, c.summarize_video_content a b d = .ok vs)
    (hcom : c.fetch_comments = .ok fetched)
    (hmiss : cache_hit (calc_comments_hash (fetched.map fetchedId))
       (metaUpdatedDB title vs (markProcessing db)) = false)
    (h3 : 3 ≤ fetched.length)
    (hclean : 3 ≤ (preprocess_texts (fetched.map (fun cd => cd.text))).1.length)
    (hemb : ∀ ts, ∃ E, c.embed ts = .ok E)
    (hkm : ∀ E k, ∃ lc, c.lib.kmeans E k = .ok lc)
    (hsc : ∀ ts s, ∃ r, c.summarize_cluster ts s = .ok r) :
    (process_video c db).2 = Except.error storeCallTypeError ∧
    (process_video c db).1.job =
      some { status := StatusEnum.failed, error_message := some storeCallTypeError } ∧
    (process_video c db).1.video.map VideoRow.status = some StatusEnum.failed ∧
    (process_video c db).1.clusters = db.clusters := by
  have harity : ¬ (store_clustered_results_call_args ≤ store_clustered_results_max_args) := by
    decide
  have hbody : process_video_body c (markProcessing db) =
      afterGate c title vs fetched
        { metaUpdatedDB title vs (markProcessing db) with
          video := (metaUpdatedDB title vs (markProcessing db)).video.map (fun w =>
            { w with hash_version := some (calc_comments_hash (fetched.map fetchedId)) }) } := by
    simp only [process_video_body, hinfo, htr, hsum, hcom, ite_self]
    rw [if_neg (by simp [hmiss])]
  have ht3 : ¬ ((fetched.map (fun cd => cd.text)).length < 3) := by
    rw [List.length_map]
    omega
  have hc3 : ¬ ((preprocess_texts (fetched.map (fun cd => cd.text))).1.length < 3) := by
    omega
  obtain ⟨E, hE⟩ := hemb (preprocess_texts (fetched.map (fun cd => cd.text))).1
  have hcc : ∃ res, cluster_comments c.lib E none = .ok res := by
    unfold cluster_comments
    by_cases hE0 : E.length = 0
    · exact ⟨([], [], []), by rw [if_pos hE0]⟩
    · obtain ⟨lc, hlc⟩ := hkm E
        (min (choose_k_by_silhouette c.lib.kOracle E.length 2 8 3) E.length)
      obtain ⟨labels, centroids⟩ := lc
      refine ⟨(labels, projectTo2D c.lib.pca E, centroids), ?_⟩
      rw [if_neg hE0]
      simp only [hlc]
  obtain ⟨res, hres⟩ := hcc
  obtain ⟨lss, hlss⟩ := summarizeClusters_ok c
    (preprocess_texts (fetched.map (fun cd => cd.text))).1 title hsc
    (select_representatives c.pyLog (preprocess_texts (fetched.map (fun cd => cd.text))).1
      E res.1 res.2.2 5 20 (95/100 : ℚ)) 0
  have hag : afterGate c title vs fetched
      { metaUpdatedDB title vs (markProcessing db) with
        video := (metaUpdatedDB title vs (markProcessing db)).video.map (fun w =>
          { w with hash_version := some (calc_comments_hash (fetched.map fetchedId)) }) } =
      (save_comments_to_db
        { metaUpdatedDB title vs (markProcessing db) with
          video := (metaUpdatedDB title vs (markProcessing db)).video.map (fun w =>
            { w with hash_version := some (calc_comments_hash (fetched.map fetchedId)) }) }
        fetched, some storeCallTypeError) := by
    simp only [afterGate, ht3, hc3, hE, hres, hlss, harity, if_false]
  have hbodyfinal : process_video_body c (markProcessing db) =
      (save_comments_to_db
        { metaUpdatedDB title vs (markProcessing db) with
          video := (metaUpdatedDB title vs (markProcessing db)).video.map (fun w =>
            { w with hash_version := some (calc_comments_hash (fetched.map fetchedId)) }) }
        fetched, some storeCallTypeError) := hbody.trans hag
  have hpv : process_video c db =
      (set_video_status (set_job_status
        (save_comments_to_db
          { metaUpdatedDB title vs (markProcessing db) with
            video := (metaUpdatedDB title vs (markProcessing db)).video.map (fun w =>
              { w with hash_version := some (calc_comments_hash (fetched.map fetchedId)) }) }
          fetched)
        .failed (some storeCallTypeError)) .failed, Except.error storeCallTypeError) := by
    simp only [process_video, hbodyfinal]
  refine ⟨by rw [hpv], ?_, ?_, ?_⟩
  · rw [hpv]
    simp [save_comments_to_db, set_job_status, set_video_status, metaUpdatedDB,
      markProcessing, hj]
  · rw [hpv]
    simp [save_comments_to_db, set_job_status, set_video_status, metaUpdatedDB,
      markProcessing, hv]
  · rw [hpv]
    simp [save_comments_to_db, set_job_status, set_video_status, metaUpdatedDB,
      markProcessing]

/-- Witness for C1: concrete failing run in which every collaborator
succeeds and three clean comments survive, yet the run ends `failed` with
the `TypeError` of the store call and the cluster rows are untouched. -/
theorem store_call_arity_bug_witness :
    (process_video wCollabOk wDB).2 = Except.error storeCallTypeError ∧
    (process_video wCollabOk wDB).1.job =
      some { status := StatusEnum.failed, error_message := some storeCallTypeError } ∧
    (process_video wCollabOk wDB).1.video.map VideoRow.status = some StatusEnum.failed ∧
    (process_video wCollabOk wDB).1.clusters = wDB.clusters :=
  store_call_arity_bug wCollabOk wDB wVideoRow { status := .queued, error_message := none }
    "Title" "Desc" none (some "video summary") wFetched rfl rfl rfl rfl
    (fun _ _ _ => rfl) rfl (by with_unfolding_all decide) (by decide) (by decide)
    (fun ts => ⟨ts.map (fun _ => [1]), rfl⟩)
    (fun E k => ⟨(E.map (fun _ => 0), List.replicate k [1]), rfl⟩)
    (fun ts s => ⟨("L", "S", "neutral"), rfl⟩)
